import Mathlib

/-!
# Verification of the `pandalytics` dtype-coercion engine (`pandalytics/cast.py`)

This file gives a shallow embedding of the dtype-inference and coercion engine
of the repository (`src/pandalytics/cast.py`) and proves / refutes the frozen
claims about it.

Modelling conventions:

* A pandas `Series` is a dtype tag together with a list of cells; a cell is
  `Option Val` where `none` is the missing marker (`pd.NA` / `np.nan` / `None`
  are conflated, as the engine treats all of them as missing).
* Numbers are modelled as `Rat` (every 64-bit float is an exact rational, and
  the engine only compares, rounds and copies numbers).  NumPy dtypes and their
  nullable pandas counterparts (`int64`/`Int64`, `float64`/`Float64`,
  `bool`/`boolean`) are conflated into the nullable tag: `cast_dtype` pipes
  every column through `convert_dtypes`, which performs exactly this
  conversion, before any dtype test that distinguishes behaviour.
* pandas library primitives that the source calls (`pd.to_numeric`,
  `pd.to_datetime`, `pd.to_timedelta`, `Series.astype`, `convert_dtypes`,
  `select_dtypes`, `set`-building over a column) are modelled from their
  documented column-level semantics; the parsers for strings are executable
  models accepting the standard literal shapes.  All claim-relevant behaviour
  (all-or-nothing conversion under `errors="ignore"`, Python equality in sets,
  `.iloc[0]` raising `IndexError` on an empty selection) is modelled exactly.
* `Float32` narrowing (`astype("Float32")`) is IEEE-754 round-to-nearest-even
  at 24 significant bits, implemented exactly over `Rat`; exponent
  overflow/underflow is not modelled (no value in scope approaches it).
* Python exceptions are `Except String`; the string names the Python error.
* In-place frame mutation (`df[dtype_changes] = ...; return df`) is modelled
  by an explicit heap of frames addressed by references (`castRef`).
-/

namespace Pandalytics

/-- The pandas dtypes that occur in the engine.  NumPy numeric dtypes are
conflated with their nullable pandas counterparts (see the header comment). -/
inductive Dtype where
  | UInt8 | UInt16 | UInt32 | UInt64
  | Int8 | Int16 | Int32 | Int64
  | Float64 | Float32
  | BooleanD | StringD | ObjectD | CategoryD | DatetimeD | TimedeltaD
  deriving DecidableEq, Repr

/-- A cell value.  `num` carries the exact rational value of an int or float
cell, `dt`/`td` carry an integer timestamp / timedelta encoding. -/
inductive Val where
  | num (q : Rat)
  | bool (b : Bool)
  | str (t : String)
  | dt (t : Int)
  | td (t : Int)
  deriving DecidableEq, Repr

/-- A pandas Series: a dtype tag plus cells; `none` is the missing marker. -/
structure Series where
  dtype : Dtype
  values : List (Option Val)
  deriving DecidableEq, Repr

/-- A DataFrame: named columns in order.  Per the data model, column names are
unique within a table. -/
abbrev Frame := List (String × Series)

/-- Models `pd.api.types.is_integer_dtype`. -/
def isIntDtype : Dtype → Bool
  | .UInt8 | .UInt16 | .UInt32 | .UInt64 | .Int8 | .Int16 | .Int32 | .Int64 => true
  | _ => false

/-- Models `pd.api.types.is_float_dtype`. -/
def isFloatDtype : Dtype → Bool
  | .Float64 | .Float32 => true
  | _ => false

/-- Models `pd.api.types.is_bool_dtype`. -/
def isBoolDtype : Dtype → Bool
  | .BooleanD => true
  | _ => false

/-- Models `is_object_or_string` from `cast.py`. -/
def isObjectOrString : Dtype → Bool
  | .ObjectD | .StringD => true
  | _ => false

/-- The non-missing cells of a Series. -/
def nonMissing (s : Series) : List Val := s.values.filterMap id

/-- The numeric non-missing cells of a Series (what `dropna` exposes to
numeric reductions such as `min`, `max` and `mod`). -/
def obsNums (s : Series) : List Rat :=
  s.values.filterMap (fun c =>
    match c with
    | some (.num q) => some q
    | _ => none)

/-- Minimum of a list of rationals (`Series.min`, which skips missing). -/
def listMin : List Rat → Option Rat
  | [] => none
  | a :: rest =>
    match listMin rest with
    | none => some a
    | some b => some (min a b)

/-- Maximum of a list of rationals (`Series.max`, which skips missing). -/
def listMax : List Rat → Option Rat
  | [] => none
  | a :: rest =>
    match listMax rest with
    | none => some a
    | some b => some (max a b)

/-- Models `s.min()` over the non-missing numeric cells. -/
def obsMin (s : Series) : Option Rat := listMin (obsNums s)

/-- Models `s.max()` over the non-missing numeric cells. -/
def obsMax (s : Series) : Option Rat := listMax (obsNums s)

/-- Models `IntCasting.could_be_int`: integer dtype, or float dtype whose every
non-missing value has zero fractional part (`s.dropna().mod(1).eq(0).all()`;
a rational has zero fractional part exactly when its denominator is 1). -/
def couldBeInt (s : Series) : Bool :=
  isIntDtype s.dtype || (isFloatDtype s.dtype && (obsNums s).all (fun q => q.den == 1))

/-- One row of `IntCasting.df_int_metadata`. -/
structure IntMetaRow where
  dtype : Dtype
  minValue : Int
  maxValue : Int
  deriving DecidableEq, Repr

/-- Models `IntCasting.df_int_metadata`: the integer dtype range table, in the exact
row order of the source (all unsigned widths first, then all signed widths). -/
def dfIntMetadata : List IntMetaRow :=
  [⟨.UInt8, 0, 255⟩,
   ⟨.UInt16, 0, 65535⟩,
   ⟨.UInt32, 0, 4294967295⟩,
   ⟨.UInt64, 0, 18446744073709551615⟩,
   ⟨.Int8, -128, 127⟩,
   ⟨.Int16, -32768, 32767⟩,
   ⟨.Int32, -2147483648, 2147483647⟩,
   ⟨.Int64, -9223372036854775808, 9223372036854775807⟩]

/-- The boolean mask `df.min_value.le(mn) & df.max_value.ge(mx)` on one row. -/
def rowCovers (r : IntMetaRow) (mn mx : Rat) : Bool :=
  decide ((r.minValue : Rat) ≤ mn) && decide (mx ≤ (r.maxValue : Rat))

/-- Models `Series.astype` onto an integer dtype: the tag changes; the (integral,
in-range) values and the missing markers are preserved. -/
def astypeInt (d : Dtype) (s : Series) : Series := ⟨d, s.values⟩

/-- Models `IntCasting.downcast_integer`.  Mirrors the source exactly: not
int-eligible → unchanged; current dtype `UInt8` → unchanged; otherwise the
first metadata row whose `[min_value, max_value]` covers `[s.min(), s.max()]`
is selected with `.loc[mask].iloc[0]`, which raises `IndexError` when the
masked selection is empty (also when `min`/`max` are missing: a mask built
from comparisons with a missing value selects nothing / is rejected). -/
def downcastInteger (s : Series) : Except String Series :=
  if ¬ couldBeInt s then .ok s
  else if s.dtype = .UInt8 then .ok s
  else
    match obsMin s, obsMax s with
    | some mn, some mx =>
      match (dfIntMetadata.filter (fun r => rowCovers r mn mx)).head? with
      | some row => .ok (if s.dtype = row.dtype then s else astypeInt row.dtype s)
      | none => .error "IndexError"
    | _, _ => .error "IndexError"

/-- The unsigned integer dtype of a given bit-width. -/
def unsignedOfWidth : Nat → Dtype
  | 8 => .UInt8
  | 16 => .UInt16
  | 32 => .UInt32
  | _ => .UInt64

/-- The signed integer dtype of a given bit-width. -/
def signedOfWidth : Nat → Dtype
  | 8 => .Int8
  | 16 => .Int16
  | 32 => .Int32
  | _ => .Int64

/-- The metadata row of a given integer dtype. -/
def metaRowOf (d : Dtype) : Option IntMetaRow :=
  dfIntMetadata.find? (fun r => r.dtype == d)

/-- Does the integer dtype `d`'s `[min_value, max_value]` range cover
`[mn, mx]`? -/
def dtypeCovers (d : Dtype) (mn mx : Rat) : Bool :=
  match metaRowOf d with
  | some r => rowCovers r mn mx
  | none => false

/-- Modelled from the spec's words (for refinement comparison with the source
scan): "the dtype of smallest bit-width whose `[min_value, max_value]` range
covers the column's observed `[min, max]`, choosing an unsigned dtype whenever
the observed minimum is >= 0". -/
def specSmallestIntDtype (mn mx : Rat) : Option Dtype :=
  ([8, 16, 32, 64].find? (fun w =>
      dtypeCovers (unsignedOfWidth w) mn mx || dtypeCovers (signedOfWidth w) mn mx)).map
    (fun w => if 0 ≤ mn then unsignedOfWidth w else signedOfWidth w)

/-- The source's selection: first covering row of the metadata table. -/
def sourcePickIntDtype (mn mx : Rat) : Option Dtype :=
  ((dfIntMetadata.filter (fun r => rowCovers r mn mx)).head?).map (·.dtype)

/-! ## Python value equality and `set(s)`

`to_boolean` builds `set(s)` from the raw cells and compares it with
`{True, False}` and `{"True", "False"}`.  Python's `set` uses Python equality,
under which `True == 1`, `False == 0` (numbers and booleans collapse), while
strings are only equal to equal strings.  The missing marker enters the set as
one element equal only to itself. -/

/-- Python `==` on cell values. -/
def pyEqV : Val → Val → Bool
  | .num a, .num b => a == b
  | .bool a, .bool b => a == b
  | .num a, .bool b => a == (if b then (1 : Rat) else 0)
  | .bool a, .num b => (if a then (1 : Rat) else 0) == b
  | .str a, .str b => a == b
  | .dt a, .dt b => a == b
  | .td a, .td b => a == b
  | _, _ => false

/-- Python `==` on cells; the missing marker equals only itself. -/
def cellEq : Option Val → Option Val → Bool
  | none, none => true
  | some a, some b => pyEqV a b
  | _, _ => false

/-- Distinct cells of a list under Python equality (the content of `set(s)`). -/
def dedupCells : List (Option Val) → List (Option Val)
  | [] => []
  | c :: rest =>
    if (dedupCells rest).any (cellEq c) then dedupCells rest else c :: dedupCells rest

/-- Python `set` equality of two cell lists viewed as sets. -/
def cellSetEq (a b : List (Option Val)) : Bool :=
  a.all (fun x => b.any (cellEq x)) && b.all (fun y => a.any (cellEq y))

/-- Distinct non-missing values under Python equality. -/
def dedupVals : List Val → List Val
  | [] => []
  | v :: rest =>
    if (dedupVals rest).any (pyEqV v) then dedupVals rest else v :: dedupVals rest

/-- Models `Series.nunique()`: the number of distinct non-missing values. -/
def nunique (s : Series) : Nat := (dedupVals (nonMissing s)).length

/-! ## Float32 narrowing

`astype("Float32")` rounds each value to IEEE-754 binary32: round to nearest,
ties to even, at 24 significant bits.  Every float is an exact rational, so
the rounding is implemented exactly over `Rat`.  Exponent overflow and
subnormal range are not modelled (no value in scope approaches them). -/

/-- Round `a / b` to the nearest natural number, ties to even. -/
def rneDiv (a b : Nat) : Nat :=
  let q := a / b
  let r := a % b
  if 2 * r < b then q
  else if b < 2 * r then q + 1
  else if q % 2 = 0 then q else q + 1

/-- Models `⌊log2 n⌋` by fuel-bounded structural recursion (kernel-computable). -/
def log2F : Nat → Nat → Nat
  | 0, _ => 0
  | fuel + 1, n => if 2 ≤ n then log2F fuel (n / 2) + 1 else 0

/-- Models `⌊log2 n⌋`. -/
def natLog2 (n : Nat) : Nat := log2F n n

/-- Models `⌊log2 (n / d)⌋` for positive naturals `n`, `d`. -/
def ratILog2 (n d : Nat) : Int :=
  let e0 : Int := (natLog2 n : Int) - (natLog2 d : Int)
  if 0 ≤ e0 then (if d * 2 ^ e0.toNat ≤ n then e0 else e0 - 1)
  else (if d ≤ n * 2 ^ (-e0).toNat then e0 else e0 - 1)

/-- Round a rational to 24 significant binary digits, ties to even
(the value `float32(q)` holds; written with `mkRat` over natural-number
arithmetic so that it is kernel-computable). -/
def toF32 (q : Rat) : Rat :=
  if q = 0 then 0
  else
    let n := q.num.natAbs
    let d := q.den
    let k := ratILog2 n d - 23
    let m : Rat :=
      if 0 ≤ k then mkRat ((rneDiv n (d * 2 ^ k.toNat)) * 2 ^ k.toNat : Nat) 1
      else mkRat (rneDiv (n * 2 ^ (-k).toNat) d : Nat) (2 ^ (-k).toNat)
    if q.num < 0 then -m else m

/-- Models `astype("Float32")` on one cell value. -/
def f32V : Val → Val
  | .num q => .num (toF32 q)
  | v => v

/-- Models `s.astype("Float32")`: tag becomes `Float32`, every value is rounded,
missing markers are preserved. -/
def narrow32 (s : Series) : Series :=
  ⟨.Float32, s.values.map (Option.map f32V)⟩

/-- Models `downcast_to_float32_if_unique` from `cast.py`: keep the narrowed Series
only when it has exactly as many distinct values as the original. -/
def downcastToFloat32IfUnique (s : Series) : Series :=
  if nunique (narrow32 s) = nunique s then narrow32 s else s

/-! ## `pd.to_numeric`, `pd.to_datetime`, `pd.to_timedelta`

Column-level semantics of the pandas parsers, as the engine relies on them:
each conversion is all-or-nothing per column; under `errors="ignore"` a column
with any unparsable non-missing cell is returned completely unchanged, under
`errors="raise"` the call raises, and under `errors="coerce"` unparsable cells
become missing.  The string parsers accept the standard literal shapes. -/

/-- Parse a digit string into a natural number. -/
def parseDigits : List Char → Option Nat
  | [] => none
  | cs =>
    if cs.all (·.isDigit) then
      some (cs.foldl (fun a c => a * 10 + (c.toNat - 48)) 0)
    else none

/-- Split a character list at every occurrence of a separator
(`String.splitOn` over the character sequence, kernel-computable). -/
def splitOnChar (sep : Char) : List Char → List (List Char)
  | [] => [[]]
  | c :: rest =>
    match splitOnChar sep rest with
    | [] => [[]]
    | g :: gs => if c = sep then [] :: g :: gs else (c :: g) :: gs

/-- Parse an unsigned decimal literal (`"12"`, `"12.5"`). -/
def parseUnsignedChars (cs : List Char) : Option Rat :=
  match splitOnChar '.' cs with
  | [w] => (parseDigits w).map (fun n => (n : Rat))
  | [w, f] =>
    match parseDigits w, parseDigits f with
    | some a, some b => some (mkRat (a * 10 ^ f.length + b : Nat) (10 ^ f.length))
    | _, _ => none
  | _ => none

/-- Parse a possibly signed decimal literal (leading `-` or `+`). -/
def parseRatStr (t : String) : Option Rat :=
  match t.toList with
  | '-' :: rest => (parseUnsignedChars rest).map Neg.neg
  | '+' :: rest => parseUnsignedChars rest
  | cs => parseUnsignedChars cs

/-- Can one cell value be parsed as a number by `pd.to_numeric`?  Numbers
parse to themselves; strings are parsed as decimal literals; booleans,
datetimes and timedeltas are rejected. -/
def pdParseNum : Val → Option Rat
  | .num q => some q
  | .str t => parseRatStr t
  | _ => none

/-- The error policy threaded through the engine. -/
inductive ErrMode where
  | ignoreE | raiseE | coerceE
  deriving DecidableEq, Repr

/-- The fully converted column for a successful numeric parse.  The resulting
tag is integer when no cell is missing and every parsed value is integral,
float otherwise; the tag choice is immaterial to every claim (both tags
continue through the same integer-downcast path in the pipeline). -/
def toNumericConverted (s : Series) : Series :=
  let parsed := s.values.map (fun c => c.bind (fun v => (pdParseNum v).map Val.num))
  let d : Dtype :=
    if s.values.all Option.isSome &&
        (nonMissing s).all (fun v => ((pdParseNum v).getD 0).den == 1) then .Int64
    else .Float64
  ⟨d, parsed⟩

/-- Models `pd.to_numeric(s, errors=mode)` at column level: all-or-nothing. -/
def toNumericMode (mode : ErrMode) (s : Series) : Except String Series :=
  if (nonMissing s).all (fun v => (pdParseNum v).isSome) then .ok (toNumericConverted s)
  else
    match mode with
    | .ignoreE => .ok s
    | .raiseE => .error "ValueError: Unable to parse string"
    | .coerceE =>
      .ok ⟨.Float64, s.values.map (fun c => c.bind (fun v => (pdParseNum v).map Val.num))⟩

/-- Models `pd.to_numeric(s, errors="ignore")` (never raises). -/
def toNumericIgnore (s : Series) : Series :=
  if (nonMissing s).all (fun v => (pdParseNum v).isSome) then toNumericConverted s else s

/-- Parse a `"YYYY-MM-DD"` date literal into an integer day code. -/
def parseDateStr (t : String) : Option Int :=
  match splitOnChar '-' t.toList with
  | [y, m, d] =>
    match parseDigits y, parseDigits m, parseDigits d with
    | some yn, some mn, some dn =>
      if y.length = 4 && 1 ≤ mn && mn ≤ 12 && 1 ≤ dn && dn ≤ 31 then
        some ((yn * 10000 + mn * 100 + dn : Nat) : Int)
      else none
    | _, _, _ => none
  | _ => none

/-- Can one cell be parsed as a datetime?  Datetime cells parse to themselves;
strings are parsed as date literals. -/
def pdParseDate : Val → Option Int
  | .dt t => some t
  | .str u => parseDateStr u
  | _ => none

/-- Models `pd.api.types.is_datetime64_any_dtype`. -/
def isDatetimeDtype : Dtype → Bool
  | .DatetimeD => true
  | _ => false

/-- Models `pd.api.types.is_timedelta64_dtype`. -/
def isTimedeltaDtype : Dtype → Bool
  | .TimedeltaD => true
  | _ => false

/-- Models `pd.to_datetime(s, errors="ignore")` at column level: all-or-nothing. -/
def toDatetimeIgnore (s : Series) : Series :=
  if (nonMissing s).all (fun v => (pdParseDate v).isSome) then
    ⟨.DatetimeD, s.values.map (fun c => c.bind (fun v => (pdParseDate v).map Val.dt))⟩
  else s

/-- Parse an `"N days"` timedelta literal. -/
def parseTdStr (t : String) : Option Int :=
  match splitOnChar ' ' t.toList with
  | [n, u] =>
    if u = "days".toList || u = "day".toList then
      (parseDigits n).map (fun k => (k : Int))
    else none
  | _ => none

/-- Can one cell be parsed as a timedelta? -/
def pdParseTd : Val → Option Int
  | .td t => some t
  | .str u => parseTdStr u
  | _ => none

/-- Models `pd.to_timedelta(s.fillna(np.nan), errors="ignore")` at column level.
(`fillna(np.nan)` swaps one missing marker for another; markers are conflated
here, so it is the identity on the model.) -/
def toTimedeltaIgnore (s : Series) : Series :=
  if (nonMissing s).all (fun v => (pdParseTd v).isSome) then
    ⟨.TimedeltaD, s.values.map (fun c => c.bind (fun v => (pdParseTd v).map Val.td))⟩
  else s

/-! ## `to_boolean` -/

/-- Models `astype("boolean")` on one non-missing cell whose column's value set is
(Python-)equal to `{True, False}`: booleans map to themselves, the numbers
equal to `True`/`False` map to `true`/`false`.  (Other shapes cannot occur in
that branch; they are mapped to `true` for totality.) -/
def valAsBool : Val → Val
  | .bool b => .bool b
  | .num q => .bool (q != 0)
  | _ => .bool true

/-- Models `to_boolean` from `cast.py`.  Mirrors the source: a boolean-dtype column
is returned as is; otherwise `set(s)` is built from the raw cells (missing
markers included) and the column is converted only when that set has exactly
two elements and equals `{True, False}` or `{"True", "False"}` under Python
equality; `s.eq("True")` maps each cell by string comparison. -/
def toBoolean (s : Series) : Series :=
  if isBoolDtype s.dtype then s
  else if (dedupCells s.values).length = 2 then
    if cellSetEq (dedupCells s.values) [some (.bool true), some (.bool false)] then
      ⟨.BooleanD, s.values.map (Option.map valAsBool)⟩
    else if cellSetEq (dedupCells s.values) [some (.str "True"), some (.str "False")] then
      ⟨.BooleanD, s.values.map (Option.map (fun v => .bool (v == .str "True")))⟩
    else s
  else s

/-! ## `convert_dtypes` and `cast_dtype` -/

/-- Models `Series.convert_dtypes()`: numpy numeric dtypes become their nullable
pandas counterparts (a conflation already built into `Dtype`), and an object
column whose non-missing values are all of one shape is converted to that
shape's dtype (bools → boolean, integral numbers → Int64, numbers → Float64,
strings → string, datetimes / timedeltas → their dtypes). -/
def convertDtypes (s : Series) : Series :=
  match s.dtype with
  | .ObjectD =>
    let nm := nonMissing s
    if nm.isEmpty then s
    else if nm.all (fun v => match v with | .bool _ => true | _ => false) then
      ⟨.BooleanD, s.values⟩
    else if nm.all (fun v => match v with | .num q => q.den == 1 | _ => false) then
      ⟨.Int64, s.values⟩
    else if nm.all (fun v => match v with | .num _ => true | _ => false) then
      ⟨.Float64, s.values⟩
    else if nm.all (fun v => match v with | .str _ => true | _ => false) then
      ⟨.StringD, s.values⟩
    else if nm.all (fun v => match v with | .dt _ => true | _ => false) then
      ⟨.DatetimeD, s.values⟩
    else if nm.all (fun v => match v with | .td _ => true | _ => false) then
      ⟨.TimedeltaD, s.values⟩
    else s
  | _ => s

/-- Models `s.astype("category")`: relabel the column as categorical. -/
def astypeCategory (s : Series) : Series := ⟨.CategoryD, s.values⟩

/-- The tail of `cast_dtype`'s object/string fallback chain, after
`s := pd.to_timedelta(s.fillna(np.nan), errors="ignore")` has produced `s5`. -/
def objChainTimedelta (useCategories : Bool) (s5 : Series) : Except String Series :=
  if isTimedeltaDtype s5.dtype then .ok s5
  else if useCategories then .ok (astypeCategory s5)
  else .ok s5

/-- The object/string fallback chain after `s := to_boolean(s)` has produced
`s4`. -/
def objChainBoolean (useCategories : Bool) (s4 : Series) : Except String Series :=
  if isBoolDtype s4.dtype then .ok s4
  else objChainTimedelta useCategories (toTimedeltaIgnore s4)

/-- The object/string fallback chain after
`s := pd.to_datetime(s, errors="ignore")` has produced `s3`. -/
def objChainDatetime (useCategories : Bool) (s3 : Series) : Except String Series :=
  if isDatetimeDtype s3.dtype then .ok s3
  else objChainBoolean useCategories (toBoolean s3)

/-- Models `cast_dtype` after the initial numeric coercion and `convert_dtypes` have
produced `s2`: integer / float downcasting, then the datetime → boolean →
timedelta → category fallback chain for object/string columns. -/
def castDtypeCore (downcast useCategories : Bool) (s2 : Series) : Except String Series :=
  if downcast && couldBeInt s2 then downcastInteger s2
  else if downcast && (s2.dtype == .Float64) then .ok (downcastToFloat32IfUnique s2)
  else if isObjectOrString s2.dtype then
    objChainDatetime useCategories (toDatetimeIgnore s2)
  else .ok s2

/-- Models `cast_dtype` from `cast.py`: numeric coercion for object/string columns,
`convert_dtypes`, integer / float downcasting, then the
datetime → boolean → timedelta → category fallback chain. -/
def castDtype (downcast useCategories : Bool) (s0 : Series) : Except String Series :=
  castDtypeCore downcast useCategories
    (convertDtypes (if isObjectOrString s0.dtype then toNumericIgnore s0 else s0))

/-! ## The frame-level orchestration (`DtypeCasting.cast`) -/

/-- Association lookup by column name. -/
def assocLookup {α : Type} (n : String) : List (String × α) → Option α
  | [] => none
  | (m, c) :: rest => if m = n then some c else assocLookup n rest

/-- Models `df.select_dtypes(dtypes_to_check)` as a dtype predicate filter. -/
def selectDtypes (sel : Dtype → Bool) (df : Frame) : Frame :=
  df.filter (fun nc => sel nc.2.dtype)

/-- Models `df_subset.apply(final_func)`: coerce every column, propagating the first
raised error. -/
def coerceAll (coerce : Series → Except String Series) : Frame → Except String Frame
  | [] => .ok []
  | (n, c) :: rest =>
    match coerce c, coerceAll coerce rest with
    | .ok c2, .ok rest2 => .ok ((n, c2) :: rest2)
    | .error e, _ => .error e
    | .ok _, .error e => .error e

/-- Models `get_dtype_changes`: the names of the coerced columns whose dtype differs
from the old dtype (the inner join of old and new dtypes restricted to
inequality; printing is a no-op here). -/
def getDtypeChanges (dfNew : Frame) (oldDtypes : List (String × Dtype)) : List String :=
  dfNew.filterMap (fun nc =>
    match assocLookup nc.1 oldDtypes with
    | some d => if d ≠ nc.2.dtype then some nc.1 else none
    | none => none)

/-- Models `df[cols_to_check]` when a column subset is given. -/
def subsetToCheck (colsToCheck : Option (List String)) (df : Frame) : Frame :=
  match colsToCheck with
  | some cs => df.filter (fun nc => cs.contains nc.1)
  | none => df

/-- The write-back `df[dtype_changes] = df_subset[dtype_changes]`: every
column whose name is in the change report is replaced by its coerced version;
all other columns of `df` are untouched. -/
def applyChanges (df : Frame) (dfSubset2 : Frame) : Frame :=
  df.map (fun nc =>
    if (getDtypeChanges dfSubset2 (df.map (fun mc => (mc.1, mc.2.dtype)))).contains nc.1
    then (nc.1, (assocLookup nc.1 dfSubset2).getD nc.2) else nc)

/-- Models `DtypeCasting.cast`: restrict to `cols_to_check`, `select_dtypes`, apply
the coercion to every selected column, then write back exactly the columns
whose dtype changed.  The `coerce` argument covers both source paths
(`coerce_func` application and `astype(new_dtype, errors=...)`). -/
def DtypeCasting.cast (sel : Dtype → Bool) (coerce : Series → Except String Series)
    (colsToCheck : Option (List String)) (df : Frame) : Except String Frame :=
  match coerceAll coerce (selectDtypes sel (subsetToCheck colsToCheck df)) with
  | .error e => .error e
  | .ok dfSubset2 => .ok (applyChanges df dfSubset2)

/-- Models `dtypes_to_check = ("object", "string")` (default of `cast_to_numeric`,
`cast_to_boolean`, ...). -/
def selObjectString : Dtype → Bool
  | .ObjectD | .StringD => true
  | _ => false

/-- Models `dtypes_to_check = ("object", "string", "number")` (default of
`cast_dtypes`). -/
def selNumberObjectString : Dtype → Bool
  | .ObjectD | .StringD => true
  | d => isIntDtype d || isFloatDtype d

/-- Models `cast_to_numeric` (default arguments, chosen error mode). -/
def castToNumeric (mode : ErrMode) (df : Frame) : Except String Frame :=
  DtypeCasting.cast selObjectString (toNumericMode mode) none df

/-- Models `cast_to_boolean` (default arguments); `to_boolean` never raises. -/
def castToBoolean (df : Frame) : Except String Frame :=
  DtypeCasting.cast selObjectString (fun s => .ok (toBoolean s)) none df

/-- Models `cast_dtypes` (default arguments: `downcast=True`, `use_categories=True`,
all columns checked).  This is the full pipeline the spec calls
`clean_dtypes`. -/
def castDtypes (df : Frame) : Except String Frame :=
  DtypeCasting.cast selNumberObjectString (castDtype true true) none df

/-! ## The heap model of in-place mutation

`DtypeCasting.cast` ends with `df[dtype_changes] = df_subset[dtype_changes];
return df`: the caller's DataFrame object itself is mutated and returned.
A heap of frames addressed by `Nat` references makes this observable. -/

/-- A Python heap: frame objects addressed by references. -/
abbrev Heap := List Frame

/-- The dtype invariant pandas maintains for integer-dtype columns: every
value lies within the dtype's representable range (for non-integer dtypes
there is nothing to require). -/
def seriesWF (s : Series) : Bool :=
  match metaRowOf s.dtype with
  | some r => (obsNums s).all (fun q => rowCovers r q q)
  | none => true

/-- An elementwise column transformation: cell `i` of the output is computed
from cell `i` of the input alone, and a missing cell stays missing.  Every
successful coercion of the engine has this shape; it entails that row count
and row order are preserved and missing markers stay in place. -/
def cellwise (c c2 : Series) : Prop :=
  ∃ f : Option Val → Option Val, f none = none ∧ c2.values = c.values.map f

/-- The stateful `DtypeCasting.cast` call on the object behind reference `r`:
the frame is mutated in place (the heap cell is updated) and the *same*
reference is returned; on a raised error the heap is untouched. -/
def castRef (sel : Dtype → Bool) (coerce : Series → Except String Series)
    (colsToCheck : Option (List String)) (h : Heap) (r : Nat) :
    Heap × Except String Nat :=
  match h.get? r with
  | none => (h, .error "NameError")
  | some df =>
    match DtypeCasting.cast sel coerce colsToCheck df with
    | .ok df2 => (h.set r df2, .ok r)
    | .error e => (h, .error e)

/-- Decidable equality of call results, for evaluating counterexamples. -/
instance {ε α : Type} [DecidableEq ε] [DecidableEq α] : DecidableEq (Except ε α) :=
  fun a b =>
    match a, b with
    | .ok x, .ok y => if h : x = y then .isTrue (by rw [h]) else .isFalse (by simp [h])
    | .error x, .error y => if h : x = y then .isTrue (by rw [h]) else .isFalse (by simp [h])
    | .ok _, .error _ => .isFalse (by simp)
    | .error _, .ok _ => .isFalse (by simp)

/-! ## Concrete example inputs used by witnesses and counterexamples -/

/-- An `Int64` column with values `{7, 300}`. -/
def exC1 : Series := ⟨.Int64, [some (.num 300), some (.num 7)]⟩

/-- The spec's column `z = ["True", "False", "True", missing]`. -/
def zC2 : Series :=
  ⟨.ObjectD, [some (.str "True"), some (.str "False"), some (.str "True"), none]⟩

/-- A `"True"/"False"` column with no missing values. -/
def tfC2 : Series := ⟨.ObjectD, [some (.str "True"), some (.str "False")]⟩

/-- A float column holding the integral value `10^30`, which exceeds every
range in the integer metadata table. -/
def exC3 : Series := ⟨.Float64, [some (.num ((10 : Rat) ^ 30))]⟩

/-- An object column with value set `{0, 1}`. -/
def exC8 : Series := ⟨.ObjectD, [some (.num 0), some (.num 1)]⟩

/-- A `Float64` column `[1.5, 2.0]`, exactly representable in `Float32`. -/
def exC7 : Series := ⟨.Float64, [some (.num (mkRat 3 2)), some (.num 2)]⟩

/-- An object column `["1", "abc"]` with one unparsable cell. -/
def exC4col : Series := ⟨.ObjectD, [some (.str "1"), some (.str "abc")]⟩

/-- A frame with the partially-parseable column `a` and a clean column `b`. -/
def exC4df : Frame :=
  [("a", exC4col), ("b", ⟨.ObjectD, [some (.str "2"), some (.str "3")]⟩)]

/-- A two-column frame: a numeric-string column and an unparsable text
column. -/
def exC9df : Frame :=
  [("x", ⟨.ObjectD, [some (.str "1"), some (.str "2"), none, some (.str "4")]⟩),
   ("s", ⟨.ObjectD, [some (.str "foo"), some (.str "bar")]⟩)]

/-- What `cast_dtypes` produces on `exC9df`: the numeric strings become a
`UInt8` column, the text column becomes categorical. -/
def exC9out : Frame :=
  [("x", ⟨.UInt8, [some (.num 1), some (.num 2), none, some (.num 4)]⟩),
   ("s", ⟨.CategoryD, [some (.str "foo"), some (.str "bar")]⟩)]

/-- A frame with a boolean-literal text column and an integer column. -/
def exC10df : Frame :=
  [("b", tfC2), ("k", ⟨.Int64, [some (.num 1), some (.num 2)]⟩)]

/-- What `cast_to_boolean` produces on `exC10df`: `b` becomes native boolean
in place, `k` is untouched. -/
def exC10out : Frame :=
  [("b", ⟨.BooleanD, [some (.bool true), some (.bool false)]⟩),
   ("k", ⟨.Int64, [some (.num 1), some (.num 2)]⟩)]

/-- A one-column integer table. -/
def exC6T : Frame := [("k", ⟨.Int64, [some (.num 3)]⟩)]

/-- What one `cast_dtypes` run produces on `exC6T`. -/
def exC6T1 : Frame := [("k", ⟨.UInt8, [some (.num 3)]⟩)]

/-- The non-idempotence seed: a `Float64` column `[16777216.5, 2.0]`;
`16777216.5` needs 25 significant bits, so `Float32` narrowing rounds it to
`16777216.0`, keeping two distinct values but making the column integral. -/
def exC6Tc : Frame :=
  [("a", ⟨.Float64, [some (.num (mkRat 33554433 2)), some (.num 2)]⟩)]

/-- The first run's output on `exC6Tc`: a `Float32` column `[16777216.0,
2.0]`, integral-valued. -/
def exC6T1c : Frame := [("a", ⟨.Float32, [some (.num 16777216), some (.num 2)]⟩)]

/-! # Theorems -/

/-! ## List helper lemmas -/

theorem listMin_mem {l : List Rat} {a : Rat} (h : listMin l = some a) : a ∈ l := by
  induction l generalizing a with
  | nil => simp [listMin] at h
  | cons x rest ih =>
    rw [listMin] at h
    rcases hr : listMin rest with - | b <;> rw [hr] at h <;> simp at h
    · simp [h]
    · rcases min_choice x b with hc | hc <;> rw [← h, hc]
      · simp
      · exact List.mem_cons_of_mem x (ih hr)

theorem listMin_eq_none {l : List Rat} (h : listMin l = none) : l = [] := by
  cases l with
  | nil => rfl
  | cons x rest =>
    rw [listMin] at h
    rcases hr : listMin rest with - | b <;> rw [hr] at h <;> simp at h

theorem listMin_le {l : List Rat} {a : Rat} (h : listMin l = some a) :
    ∀ b ∈ l, a ≤ b := by
  induction l generalizing a with
  | nil => simp
  | cons x rest ih =>
    rw [listMin] at h
    intro b hb
    rw [List.mem_cons] at hb
    rcases hr : listMin rest with - | c <;> rw [hr] at h <;> simp at h
    · rw [listMin_eq_none hr] at hb
      simp at hb
      exact le_of_eq (by rw [← h, hb])
    · rcases hb with hb | hb
      · rw [hb, ← h]; exact min_le_left _ _
      · exact le_trans (by rw [← h]; exact min_le_right _ _) (ih hr b hb)

theorem listMax_mem {l : List Rat} {a : Rat} (h : listMax l = some a) : a ∈ l := by
  induction l generalizing a with
  | nil => simp [listMax] at h
  | cons x rest ih =>
    rw [listMax] at h
    rcases hr : listMax rest with - | b <;> rw [hr] at h <;> simp at h
    · simp [h]
    · rcases max_choice x b with hc | hc <;> rw [← h, hc]
      · simp
      · exact List.mem_cons_of_mem x (ih hr)

theorem listMax_eq_none {l : List Rat} (h : listMax l = none) : l = [] := by
  cases l with
  | nil => rfl
  | cons x rest =>
    rw [listMax] at h
    rcases hr : listMax rest with - | b <;> rw [hr] at h <;> simp at h

theorem listMax_ge {l : List Rat} {a : Rat} (h : listMax l = some a) :
    ∀ b ∈ l, b ≤ a := by
  induction l generalizing a with
  | nil => simp
  | cons x rest ih =>
    rw [listMax] at h
    intro b hb
    rw [List.mem_cons] at hb
    rcases hr : listMax rest with - | c <;> rw [hr] at h <;> simp at h
    · rw [listMax_eq_none hr] at hb
      simp at hb
      exact le_of_eq (by rw [hb, ← h])
    · rcases hb with hb | hb
      · rw [hb, ← h]; exact le_max_left _ _
      · exact le_trans (ih hr b hb) (by rw [← h]; exact le_max_right _ _)

theorem head?_filter_ite (p : IntMetaRow → Bool) (r : IntMetaRow) (l : List IntMetaRow) :
    ((r :: l).filter p).head? = if p r then some r else (l.filter p).head? := by
  by_cases h : p r <;> simp [List.filter_cons, h]

/-! ## The integer dtype selection: source scan versus spec description -/

theorem spec_unfold (mn mx : Rat) :
    specSmallestIntDtype mn mx =
      if dtypeCovers .UInt8 mn mx || dtypeCovers .Int8 mn mx then
        some (if 0 ≤ mn then Dtype.UInt8 else .Int8)
      else if dtypeCovers .UInt16 mn mx || dtypeCovers .Int16 mn mx then
        some (if 0 ≤ mn then Dtype.UInt16 else .Int16)
      else if dtypeCovers .UInt32 mn mx || dtypeCovers .Int32 mn mx then
        some (if 0 ≤ mn then Dtype.UInt32 else .Int32)
      else if dtypeCovers .UInt64 mn mx || dtypeCovers .Int64 mn mx then
        some (if 0 ≤ mn then Dtype.UInt64 else .Int64)
      else none := by
  unfold specSmallestIntDtype
  rcases h8 : dtypeCovers .UInt8 mn mx || dtypeCovers .Int8 mn mx <;>
  rcases h16 : dtypeCovers .UInt16 mn mx || dtypeCovers .Int16 mn mx <;>
  rcases h32 : dtypeCovers .UInt32 mn mx || dtypeCovers .Int32 mn mx <;>
  rcases h64 : dtypeCovers .UInt64 mn mx || dtypeCovers .Int64 mn mx <;>
  simp [List.find?, unsignedOfWidth, signedOfWidth, h8, h16, h32, h64]

theorem source_unfold (mn mx : Rat) :
    sourcePickIntDtype mn mx =
      if rowCovers ⟨.UInt8, 0, 255⟩ mn mx then some Dtype.UInt8
      else if rowCovers ⟨.UInt16, 0, 65535⟩ mn mx then some .UInt16
      else if rowCovers ⟨.UInt32, 0, 4294967295⟩ mn mx then some .UInt32
      else if rowCovers ⟨.UInt64, 0, 18446744073709551615⟩ mn mx then some .UInt64
      else if rowCovers ⟨.Int8, -128, 127⟩ mn mx then some .Int8
      else if rowCovers ⟨.Int16, -32768, 32767⟩ mn mx then some .Int16
      else if rowCovers ⟨.Int32, -2147483648, 2147483647⟩ mn mx then some .Int32
      else if rowCovers ⟨.Int64, -9223372036854775808, 9223372036854775807⟩ mn mx then
        some .Int64
      else none := by
  unfold sourcePickIntDtype dfIntMetadata
  rw [head?_filter_ite, head?_filter_ite, head?_filter_ite, head?_filter_ite,
    head?_filter_ite, head?_filter_ite, head?_filter_ite, head?_filter_ite]
  simp only [List.filter_nil]
  split_ifs <;> simp

theorem dtypeCovers_UInt8 (mn mx : Rat) :
    dtypeCovers .UInt8 mn mx = rowCovers ⟨.UInt8, 0, 255⟩ mn mx := rfl

theorem dtypeCovers_UInt16 (mn mx : Rat) :
    dtypeCovers .UInt16 mn mx = rowCovers ⟨.UInt16, 0, 65535⟩ mn mx := rfl

theorem dtypeCovers_UInt32 (mn mx : Rat) :
    dtypeCovers .UInt32 mn mx = rowCovers ⟨.UInt32, 0, 4294967295⟩ mn mx := rfl

theorem dtypeCovers_UInt64 (mn mx : Rat) :
    dtypeCovers .UInt64 mn mx = rowCovers ⟨.UInt64, 0, 18446744073709551615⟩ mn mx := rfl

theorem dtypeCovers_Int8 (mn mx : Rat) :
    dtypeCovers .Int8 mn mx = rowCovers ⟨.Int8, -128, 127⟩ mn mx := rfl

theorem dtypeCovers_Int16 (mn mx : Rat) :
    dtypeCovers .Int16 mn mx = rowCovers ⟨.Int16, -32768, 32767⟩ mn mx := rfl

theorem dtypeCovers_Int32 (mn mx : Rat) :
    dtypeCovers .Int32 mn mx = rowCovers ⟨.Int32, -2147483648, 2147483647⟩ mn mx := rfl

theorem dtypeCovers_Int64 (mn mx : Rat) :
    dtypeCovers .Int64 mn mx =
      rowCovers ⟨.Int64, -9223372036854775808, 9223372036854775807⟩ mn mx := rfl

/-- The source's first-covering-row scan over the metadata table computes
exactly the spec's described selection: smallest covering bit-width,
unsigned whenever the observed minimum is nonnegative. -/
theorem pick_eq (mn mx : Rat) : sourcePickIntDtype mn mx = specSmallestIntDtype mn mx := by
  rw [source_unfold, spec_unfold]
  simp only [dtypeCovers_UInt8, dtypeCovers_UInt16, dtypeCovers_UInt32, dtypeCovers_UInt64,
    dtypeCovers_Int8, dtypeCovers_Int16, dtypeCovers_Int32, dtypeCovers_Int64,
    rowCovers, Bool.or_eq_true, Bool.and_eq_true, decide_eq_true_eq]
  push_cast
  by_cases h0 : (0:Rat) ≤ mn
  · -- All unsigned rows have min_value 0 ≤ mn; a signed row of some width covers
    -- only if the unsigned row of the same width does (its max_value is smaller).
    by_cases hu8 : mx ≤ (255:Rat)
    · simp [h0, hu8]
    · have hs8 : ¬ mx ≤ (127:Rat) := by intro h; exact hu8 (by linarith)
      by_cases hu16 : mx ≤ (65535:Rat)
      · simp [h0, hu8, hu16, hs8]
      · have hs16 : ¬ mx ≤ (32767:Rat) := by intro h; exact hu16 (by linarith)
        by_cases hu32 : mx ≤ (4294967295:Rat)
        · simp [h0, hu8, hu16, hu32, hs8, hs16]
        · have hs32 : ¬ mx ≤ (2147483647:Rat) := by intro h; exact hu32 (by linarith)
          by_cases hu64 : mx ≤ (18446744073709551615:Rat)
          · simp [h0, hu8, hu16, hu32, hu64, hs8, hs16, hs32]
          · have hs64 : ¬ mx ≤ (9223372036854775807:Rat) := by
              intro h; exact hu64 (by linarith)
            simp [h0, hu8, hu16, hu32, hu64, hs8, hs16, hs32, hs64]
  · -- mn < 0: no unsigned row covers; both sides walk the signed rows.
    simp [h0]

theorem metaRowOf_self : ∀ r ∈ dfIntMetadata, metaRowOf r.dtype = some r := by decide

theorem head?_eq_some_mem {α : Type} {l : List α} {a : α} (h : l.head? = some a) :
    a ∈ l := by
  cases l with
  | nil => simp at h
  | cons x rest => simp at h; simp [h]

/-- C1: for an integer-eligible column whose observed minimum and maximum are
covered by some metadata entry, `downcast_integer` returns the column cast to
the smallest-width covering dtype (unsigned whenever the minimum is ≥ 0, per
`specSmallestIntDtype`), never truncating any present value, and returns the
column itself when its dtype already equals the selected one. -/
theorem C1_downcast_integer_smallest (s : Series) (mn mx : Rat) (d : Dtype)
    (hwf : seriesWF s = true)
    (hint : couldBeInt s = true)
    (hmn : obsMin s = some mn) (hmx : obsMax s = some mx)
    (hd : specSmallestIntDtype mn mx = some d) :
    downcastInteger s = .ok (if s.dtype = d then s else astypeInt d s) ∧
      ∀ q ∈ obsNums s, dtypeCovers d q q = true := by
  have hsp : sourcePickIntDtype mn mx = some d := by rw [pick_eq]; exact hd
  have hmnle : ∀ q ∈ obsNums s, mn ≤ q := listMin_le hmn
  have hmxge : ∀ q ∈ obsNums s, q ≤ mx := listMax_ge hmx
  by_cases h8 : s.dtype = .UInt8
  · -- The early-return branch: the dtype invariant forces the selection
    -- to be UInt8 as well, so returning the column unchanged agrees.
    have hwf8 : ∀ q ∈ obsNums s, (0:Rat) ≤ q ∧ q ≤ 255 := by
      intro q hq
      rw [seriesWF, h8] at hwf
      have : rowCovers ⟨.UInt8, 0, 255⟩ q q = true := by
        have := (List.all_eq_true.mp hwf) q hq
        simpa using this
      rw [rowCovers, Bool.and_eq_true, decide_eq_true_eq, decide_eq_true_eq] at this
      constructor
      · simpa using this.1
      · simpa using this.2
    have hd8 : d = .UInt8 := by
      have hmn0 : (0:Rat) ≤ mn := (hwf8 mn (listMin_mem hmn)).1
      have hmx255 : mx ≤ 255 := (hwf8 mx (listMax_mem hmx)).2
      have : specSmallestIntDtype mn mx = some .UInt8 := by
        rw [spec_unfold]
        have hc : dtypeCovers .UInt8 mn mx = true := by
          rw [dtypeCovers_UInt8, rowCovers]
          simp only [Bool.and_eq_true, decide_eq_true_eq]
          exact ⟨by simpa using hmn0, by simpa using hmx255⟩
        rw [hc]
        simp [hmn0]
      rw [this] at hd
      exact (Option.some_injective _ hd).symm
    constructor
    · rw [downcastInteger]
      simp [hint, h8, hd8]
    · intro q hq
      rw [hd8, dtypeCovers_UInt8, rowCovers]
      simp only [Bool.and_eq_true, decide_eq_true_eq]
      exact ⟨by simpa using (hwf8 q hq).1, by simpa using (hwf8 q hq).2⟩
  · -- The scan branch: the first covering row is the spec's selection.
    rcases hh : (dfIntMetadata.filter (fun r => rowCovers r mn mx)).head? with - | row
    · rw [sourcePickIntDtype, hh] at hsp
      simp at hsp
    · have hrowd : row.dtype = d := by
        rw [sourcePickIntDtype, hh] at hsp
        simpa using hsp
      have hrowm : row ∈ dfIntMetadata ∧ rowCovers row mn mx = true := by
        have := head?_eq_some_mem hh
        exact ⟨(List.mem_filter.mp this).1, (List.mem_filter.mp this).2⟩
      constructor
      · rw [downcastInteger]
        simp [hint, h8, hmn, hmx, hh, hrowd]
      · intro q hq
        have hcov := hrowm.2
        rw [rowCovers, Bool.and_eq_true, decide_eq_true_eq, decide_eq_true_eq] at hcov
        rw [← hrowd]
        unfold dtypeCovers
        rw [metaRowOf_self row hrowm.1]
        show rowCovers row q q = true
        rw [rowCovers]
        simp only [Bool.and_eq_true, decide_eq_true_eq]
        exact ⟨le_trans hcov.1 (hmnle q hq), le_trans (hmxge q hq) hcov.2⟩

/-- Witness for C1: the `Int64` column `{7, 300}` downcasts to `UInt16`. -/
theorem C1_witness :
    (seriesWF exC1 = true ∧ couldBeInt exC1 = true ∧ obsMin exC1 = some 7 ∧
      obsMax exC1 = some 300 ∧ specSmallestIntDtype 7 300 = some .UInt16) ∧
    (downcastInteger exC1 =
        .ok (if exC1.dtype = .UInt16 then exC1 else astypeInt .UInt16 exC1) ∧
      ∀ q ∈ obsNums exC1, dtypeCovers .UInt16 q q = true) :=
  ⟨⟨by decide, by decide, by decide, by decide, by decide⟩,
    C1_downcast_integer_smallest exC1 7 300 .UInt16 (by decide) (by decide) (by decide)
      (by decide) (by decide)⟩

/-- C3: the claim says a column whose observed range no metadata entry covers
is left at its current dtype with no error; the code instead reaches
`.loc[empty mask].iloc[0]`, which raises `IndexError`.  The integral float
column `[10^30]` is int-eligible, covered by no row, and makes
`downcast_integer` raise. -/
theorem C3_downcast_uncovered_range_raises :
    couldBeInt exC3 = true ∧
    (∀ r ∈ dfIntMetadata, rowCovers r ((10 : Rat) ^ 30) ((10 : Rat) ^ 30) = false) ∧
    downcastInteger exC3 = .error "IndexError" := by
  refine ⟨by decide, by decide, ?_⟩
  decide

/-! ## `to_boolean` (C2 and C8) -/

theorem mem_dedupCells {x : Option Val} (hx : ∀ y, cellEq x y = true → y = x)
    {l : List (Option Val)} (h : x ∈ l) : x ∈ dedupCells l := by
  induction l with
  | nil => simp at h
  | cons c rest ih =>
    rw [List.mem_cons] at h
    rw [dedupCells]
    rcases h with h | h
    · subst h
      by_cases ha : (dedupCells rest).any (cellEq x)
      · rw [if_pos ha]
        rcases List.any_eq_true.mp ha with ⟨r, hr, hxr⟩
        rw [← hx r hxr]
        exact hr
      · rw [if_neg ha]
        exact List.mem_cons_self _ _
    · by_cases ha : (dedupCells rest).any (cellEq c)
      · rw [if_pos ha]; exact ih h
      · rw [if_neg ha]; exact List.mem_cons_of_mem _ (ih h)

theorem cellEq_none_right {y : Option Val} (h : cellEq none y = true) : y = none := by
  cases y with
  | none => rfl
  | some v => simp [cellEq] at h

theorem cellEq_str_right {t : String} {y : Option Val}
    (h : cellEq (some (.str t)) y = true) : y = some (.str t) := by
  cases y with
  | none => simp [cellEq] at h
  | some v =>
    cases v <;> simp [cellEq, pyEqV] at h
    rw [h]

/-- C2 (amended): `to_boolean` converts a non-boolean column exactly when its
full distinct cell set — missing markers included — is `{"True", "False"}`;
a column that also contains a missing marker has three distinct cells and is
returned unchanged (as the repository's own `test_to_boolean_from_object_na`
asserts), contrary to the claim's missing-value example. -/
theorem C2_boolean_conversion_without_missing :
    (∀ s : Series, isBoolDtype s.dtype = false →
      (dedupCells s.values = [some (.str "True"), some (.str "False")] ∨
        dedupCells s.values = [some (.str "False"), some (.str "True")]) →
      toBoolean s =
        ⟨.BooleanD, s.values.map (Option.map (fun v => .bool (v == .str "True")))⟩) ∧
    (∀ s : Series, isBoolDtype s.dtype = false →
      none ∈ s.values → some (.str "True") ∈ s.values → some (.str "False") ∈ s.values →
      toBoolean s = s) := by
  constructor
  · intro s hnb hded
    have hlen : (dedupCells s.values).length = 2 := by
      rcases hded with h | h <;> rw [h] <;> rfl
    have hb1 : cellSetEq (dedupCells s.values)
        [some (.bool true), some (.bool false)] = false := by
      rcases hded with h | h <;> rw [h] <;> decide
    have hb2 : cellSetEq (dedupCells s.values)
        [some (.str "True"), some (.str "False")] = true := by
      rcases hded with h | h <;> rw [h] <;> decide
    rw [toBoolean]
    simp [hnb, hlen, hb1, hb2]
  · intro s hnb hn ht hf
    have h1 : (none : Option Val) ∈ dedupCells s.values :=
      mem_dedupCells (fun y hy => cellEq_none_right hy) hn
    have h2 : some (Val.str "True") ∈ dedupCells s.values :=
      mem_dedupCells (fun y hy => cellEq_str_right hy) ht
    have h3 : some (Val.str "False") ∈ dedupCells s.values :=
      mem_dedupCells (fun y hy => cellEq_str_right hy) hf
    have hsub : ({none, some (.str "True"), some (.str "False")} : Finset (Option Val)) ⊆
        (dedupCells s.values).toFinset := by
      intro x hx
      simp only [Finset.mem_insert, Finset.mem_singleton] at hx
      rcases hx with h | h | h <;> subst h <;> rw [List.mem_toFinset] <;> assumption
    have hcard : 3 ≤ (dedupCells s.values).toFinset.card := by
      have h33 : ({none, some (.str "True"), some (.str "False")} :
          Finset (Option Val)).card = 3 := by decide
      rw [← h33]
      exact Finset.card_le_card hsub
    have hlen : (dedupCells s.values).length ≠ 2 := by
      have := (dedupCells s.values).toFinset_card_le
      omega
    rw [toBoolean]
    simp [hnb, hlen]

/-- Witness for C2 (amended): `["True", "False"]` converts to native boolean,
and the spec's column `z` (which has a missing marker) is returned unchanged.
-/
theorem C2_witness :
    toBoolean tfC2 = ⟨.BooleanD, [some (.bool true), some (.bool false)]⟩ ∧
    toBoolean zC2 = zC2 := by
  constructor
  · have h := C2_boolean_conversion_without_missing.1 tfC2 (by decide) (Or.inl (by decide))
    rw [h]
    decide
  · exact C2_boolean_conversion_without_missing.2 zC2 (by decide) (by decide) (by decide)
      (by decide)

/-- Counterexample for C2: on the spec's column
`z = ["True", "False", "True", missing]` — whose distinct *non-missing* value
set is exactly `{"True", "False"}` — `to_boolean` returns the column
unchanged and not as a boolean column, because the `set(s)` the source builds
also contains the missing marker and therefore has three elements, not two. -/
theorem C2_counterexample :
    toBoolean zC2 = zC2 ∧ isBoolDtype (toBoolean zC2).dtype = false ∧
    castToBoolean [("z", zC2)] = .ok [("z", zC2)] := by
  refine ⟨by decide, by decide, ?_⟩
  decide

/-- C8 (amended): a non-boolean column whose two-element distinct cell set is
neither Python-equal to `{True, False}` nor equal to `{"True", "False"}` is
returned unchanged — so `{"Y", "N"}` and `{"true", "false"}` stay unchanged;
but Python equality identifies `1` with `True` and `0` with `False`, so the
set `{0, 1}` *is* Python-equal to `{True, False}` and the claim's `{0, 1}`
example is in fact converted. -/
theorem C8_two_valued_non_literal_unchanged :
    (∀ s : Series, isBoolDtype s.dtype = false →
      (dedupCells s.values).length = 2 →
      cellSetEq (dedupCells s.values) [some (.bool true), some (.bool false)] = false →
      cellSetEq (dedupCells s.values) [some (.str "True"), some (.str "False")] = false →
      toBoolean s = s) ∧
    toBoolean ⟨.ObjectD, [some (.str "Y"), some (.str "N")]⟩ =
      ⟨.ObjectD, [some (.str "Y"), some (.str "N")]⟩ ∧
    toBoolean ⟨.ObjectD, [some (.str "true"), some (.str "false")]⟩ =
      ⟨.ObjectD, [some (.str "true"), some (.str "false")]⟩ := by
  refine ⟨?_, by decide, by decide⟩
  intro s hnb hlen hb1 hb2
  rw [toBoolean]
  simp [hnb, hlen, hb1, hb2]

/-- Witness for C8 (amended), applying it to the `{"Y", "N"}` column. -/
theorem C8_witness :
    toBoolean ⟨.ObjectD, [some (.str "Y"), some (.str "N")]⟩ =
      ⟨.ObjectD, [some (.str "Y"), some (.str "N")]⟩ :=
  C8_two_valued_non_literal_unchanged.1 ⟨.ObjectD, [some (.str "Y"), some (.str "N")]⟩
    (by decide) (by decide) (by decide) (by decide)

/-- Counterexample for C8: the claim says the two-valued set `{0, 1}` is left
unchanged, but Python's `{0, 1} == {True, False}` is `True`, so the source
converts the column to boolean. -/
theorem C8_counterexample :
    toBoolean exC8 = ⟨.BooleanD, [some (.bool false), some (.bool true)]⟩ ∧
    toBoolean exC8 ≠ exC8 := by
  refine ⟨by decide, by decide⟩

/-! ## Float narrowing (C7) -/

/-- C7: for a float column, `downcast_to_float32_if_unique` preserves the
distinct-value count, returning the narrowed column exactly when narrowing
keeps that count and the original column unchanged otherwise. -/
theorem C7_float32_downcast_preserves_nunique (s : Series)
    (_hf : isFloatDtype s.dtype = true) :
    nunique (downcastToFloat32IfUnique s) = nunique s ∧
    (nunique (narrow32 s) = nunique s → downcastToFloat32IfUnique s = narrow32 s) ∧
    (nunique (narrow32 s) ≠ nunique s → downcastToFloat32IfUnique s = s) := by
  rw [downcastToFloat32IfUnique]
  by_cases h : nunique (narrow32 s) = nunique s <;> simp [h]

/-- Witness for C7: `Float64` column `[1.5, 2.0]` narrows to `Float32` with
both distinct values preserved. -/
theorem C7_witness :
    isFloatDtype exC7.dtype = true ∧
    nunique (downcastToFloat32IfUnique exC7) = nunique exC7 ∧
    downcastToFloat32IfUnique exC7 = narrow32 exC7 ∧
    narrow32 exC7 = ⟨.Float32, [some (.num (mkRat 3 2)), some (.num 2)]⟩ := by
  have h := C7_float32_downcast_preserves_nunique exC7 (by decide)
  exact ⟨by decide, h.1, h.2.1 (by decide), by decide⟩

/-! ## Frame plumbing lemmas -/

theorem coerceAll_ok_iff {coerce : Series → Except String Series} {l l2 : Frame} :
    coerceAll coerce l = .ok l2 ↔
      List.Forall₂ (fun a b => b.1 = a.1 ∧ coerce a.2 = .ok b.2) l l2 := by
  induction l generalizing l2 with
  | nil =>
    constructor
    · intro h
      rw [coerceAll] at h
      cases h
      exact List.Forall₂.nil
    · intro h
      cases h
      rfl
  | cons nc rest ih =>
    constructor
    · intro h
      rw [coerceAll] at h
      rcases hc : coerce nc.2 with e | c2 <;> rw [hc] at h
      · cases h
      · rcases hr : coerceAll coerce rest with e | rest2 <;> rw [hr] at h
        · cases h
        · cases h
          exact List.Forall₂.cons ⟨rfl, hc⟩ (ih.mp hr)
    · intro h
      cases h with
      | cons hab hrest =>
        rename_i b l2b
        rw [coerceAll]
        rcases b with ⟨bn, bc⟩
        rcases hab with ⟨h1, h2⟩
        rw [h2, ih.mpr hrest]
        simp at h1
        rw [h1]

theorem coerceAll_error_of_mem {coerce : Series → Except String Series} {l : Frame}
    (h : ∃ nc ∈ l, ∃ e, coerce nc.2 = .error e) :
    ∃ e, coerceAll coerce l = .error e := by
  induction l with
  | nil => simp at h
  | cons nc rest ih =>
    rcases h with ⟨mc, hm, e, he⟩
    rw [List.mem_cons] at hm
    rw [coerceAll]
    rcases hm with hm | hm
    · subst hm
      rw [he]
      exact ⟨e, rfl⟩
    · rcases hc : coerce nc.2 with e2 | c2
      · exact ⟨e2, rfl⟩
      · rcases ih ⟨mc, hm, e, he⟩ with ⟨e3, he3⟩
        rw [he3]
        exact ⟨e3, rfl⟩

theorem coerceAll_ok_of_total {coerce : Series → Except String Series} {l : Frame}
    (h : ∀ nc ∈ l, ∃ c2, coerce nc.2 = .ok c2) :
    ∃ l2, coerceAll coerce l = .ok l2 := by
  induction l with
  | nil => exact ⟨[], rfl⟩
  | cons nc rest ih =>
    rcases h nc (List.mem_cons_self _ _) with ⟨c2, hc⟩
    rcases ih (fun mc hm => h mc (List.mem_cons_of_mem _ hm)) with ⟨rest2, hr⟩
    rw [coerceAll, hc, hr]
    exact ⟨(nc.1, c2) :: rest2, rfl⟩

theorem forall2_mem_left {R : (String × Series) → (String × Series) → Prop}
    {l l2 : Frame} (h : List.Forall₂ R l l2) {a} (ha : a ∈ l) : ∃ b ∈ l2, R a b := by
  induction h with
  | nil => simp at ha
  | cons hab _ ih =>
    rw [List.mem_cons] at ha
    rcases ha with ha | ha
    · subst ha
      exact ⟨_, List.mem_cons_self _ _, hab⟩
    · rcases ih ha with ⟨b, hb, hr⟩
      exact ⟨b, List.mem_cons_of_mem _ hb, hr⟩

theorem forall2_mem_right {R : (String × Series) → (String × Series) → Prop}
    {l l2 : Frame} (h : List.Forall₂ R l l2) {b} (hb : b ∈ l2) : ∃ a ∈ l, R a b := by
  induction h with
  | nil => simp at hb
  | cons hab _ ih =>
    rw [List.mem_cons] at hb
    rcases hb with hb | hb
    · subst hb
      exact ⟨_, List.mem_cons_self _ _, hab⟩
    · rcases ih hb with ⟨a, ha, hr⟩
      exact ⟨a, List.mem_cons_of_mem _ ha, hr⟩

theorem forall2_map_fst {R : (String × Series) → (String × Series) → Prop}
    {l l2 : Frame} (h : List.Forall₂ R l l2) (hR : ∀ a b, R a b → b.1 = a.1) :
    l2.map Prod.fst = l.map Prod.fst := by
  induction h with
  | nil => rfl
  | cons hab _ ih => simp [ih, hR _ _ hab]

theorem assocLookup_of_mem_nodup {α : Type} {l : List (String × α)}
    (hnd : (l.map Prod.fst).Nodup) {n : String} {c : α} (h : (n, c) ∈ l) :
    assocLookup n l = some c := by
  induction l with
  | nil => simp at h
  | cons mc rest ih =>
    rw [List.map_cons, List.nodup_cons] at hnd
    rw [List.mem_cons] at h
    rw [assocLookup]
    rcases h with h | h
    · rw [← h]
      simp
    · have hne : mc.1 ≠ n := by
        intro he
        exact hnd.1 (he ▸ List.mem_map_of_mem Prod.fst h)
      rw [if_neg hne]
      exact ih hnd.2 h

theorem assocLookup_mem {α : Type} {l : List (String × α)} {n : String} {c : α}
    (h : assocLookup n l = some c) : (n, c) ∈ l := by
  induction l with
  | nil => simp [assocLookup] at h
  | cons mc rest ih =>
    rw [assocLookup] at h
    by_cases he : mc.1 = n
    · rw [if_pos he] at h
      cases h
      rw [← he]
      exact List.mem_cons_self _ _
    · rw [if_neg he] at h
      exact List.mem_cons_of_mem _ (ih h)

theorem mem_getDtypeChanges {sub2 : Frame} {old : List (String × Dtype)} {n : String} :
    n ∈ getDtypeChanges sub2 old ↔
      ∃ c2, (n, c2) ∈ sub2 ∧ ∃ d, assocLookup n old = some d ∧ d ≠ c2.dtype := by
  rw [getDtypeChanges, List.mem_filterMap]
  constructor
  · rintro ⟨nc, hm, hf⟩
    rcases ha : assocLookup nc.1 old with - | d <;> rw [ha] at hf
    · cases hf
    · change (if d ≠ nc.2.dtype then some nc.1 else none) = some n at hf
      by_cases hd : d ≠ nc.2.dtype
      · rw [if_pos hd] at hf
        cases hf
        exact ⟨nc.2, hm, d, ha, hd⟩
      · rw [if_neg hd] at hf
        cases hf
  · rintro ⟨c2, hm, d, ha, hd⟩
    refine ⟨(n, c2), hm, ?_⟩
    have : assocLookup (n, c2).1 old = some d := ha
    rw [this]
    change (if d ≠ c2.dtype then some n else none) = some n
    rw [if_pos hd]

theorem cast_ok_iff {sel : Dtype → Bool} {coerce : Series → Except String Series}
    {colsToCheck : Option (List String)} {df df2 : Frame} :
    DtypeCasting.cast sel coerce colsToCheck df = .ok df2 ↔
      ∃ sub2, coerceAll coerce (selectDtypes sel (subsetToCheck colsToCheck df)) = .ok sub2 ∧
        df2 = applyChanges df sub2 := by
  rw [DtypeCasting.cast]
  rcases h : coerceAll coerce (selectDtypes sel (subsetToCheck colsToCheck df)) with e | s2
  · simp
  · constructor
    · intro h2
      cases h2
      exact ⟨s2, rfl, rfl⟩
    · rintro ⟨s2b, hb, he⟩
      cases hb
      rw [he]

theorem assocLookup_map_name_preserving {g : (String × Series) → (String × Series)}
    (hg : ∀ nc, (g nc).1 = nc.1) (n : String) (l : Frame) :
    assocLookup n (l.map g) = (assocLookup n l).map (fun c => (g (n, c)).2) := by
  induction l with
  | nil => rfl
  | cons mc rest ih =>
    rw [List.map_cons, assocLookup, assocLookup, hg mc]
    by_cases he : mc.1 = n
    · rw [if_pos he, if_pos he]
      have : g mc = g (n, mc.2) := by rw [← he]
      simp [this]
    · rw [if_neg he, if_neg he]
      exact ih

theorem assocLookup_oldDtypes {df : Frame} {n : String} {c : Series}
    (hnd : (df.map Prod.fst).Nodup) (h : (n, c) ∈ df) :
    assocLookup n (df.map (fun mc => (mc.1, mc.2.dtype))) = some c.dtype := by
  have hnd2 : ((df.map (fun mc => (mc.1, mc.2.dtype))).map Prod.fst).Nodup := by
    rw [List.map_map]
    exact hnd
  exact assocLookup_of_mem_nodup hnd2 (List.mem_map_of_mem _ h)

theorem subsetToCheck_sublist (colsToCheck : Option (List String)) (df : Frame) :
    (subsetToCheck colsToCheck df).Sublist df := by
  rcases colsToCheck with - | cs
  · exact List.Sublist.refl df
  · exact List.filter_sublist df

theorem selectDtypes_sublist (sel : Dtype → Bool) (df : Frame) :
    (selectDtypes sel df).Sublist df := List.filter_sublist df

theorem selected_sublist (sel : Dtype → Bool) (colsToCheck : Option (List String))
    (df : Frame) : (selectDtypes sel (subsetToCheck colsToCheck df)).Sublist df :=
  (selectDtypes_sublist sel _).trans (subsetToCheck_sublist colsToCheck df)

theorem nodup_selected {sel : Dtype → Bool} {colsToCheck : Option (List String)}
    {df : Frame} (hnd : (df.map Prod.fst).Nodup) :
    ((selectDtypes sel (subsetToCheck colsToCheck df)).map Prod.fst).Nodup :=
  List.Nodup.sublist (List.Sublist.map Prod.fst (selected_sublist sel colsToCheck df)) hnd

theorem string_contains_iff {l : List String} {n : String} :
    l.contains n = true ↔ n ∈ l := by
  induction l with
  | nil => simp
  | cons x rest ih => simp [List.contains_cons, ih, beq_iff_eq]

theorem applyChanges_name_preserving (df sub2 : Frame) :
    ∀ i, (applyChanges df sub2).get? i = (df.get? i).map (fun nc =>
      if (getDtypeChanges sub2 (df.map (fun mc => (mc.1, mc.2.dtype)))).contains nc.1
      then (nc.1, (assocLookup nc.1 sub2).getD nc.2) else nc) := by
  intro i
  rw [applyChanges, List.get?_map]

theorem applyChanges_map_fst (df sub2 : Frame) :
    (applyChanges df sub2).map Prod.fst = df.map Prod.fst := by
  rw [applyChanges, List.map_map]
  apply List.map_congr_left
  intro nc _
  by_cases hc : nc.1 ∈ getDtypeChanges sub2
      (df.map (fun mc => (mc.1, mc.2.dtype))) <;> simp [hc]

theorem assocLookup_applyChanges {df sub2 : Frame} {n : String} {c : Series}
    (hnd : (df.map Prod.fst).Nodup) (hmem : (n, c) ∈ df) :
    assocLookup n (applyChanges df sub2) = some
      (if (getDtypeChanges sub2 (df.map (fun mc => (mc.1, mc.2.dtype)))).contains n
       then (assocLookup n sub2).getD c else c) := by
  rw [applyChanges, assocLookup_map_name_preserving]
  · rw [assocLookup_of_mem_nodup hnd hmem]
    by_cases hc : n ∈ getDtypeChanges sub2
        (df.map (fun mc => (mc.1, mc.2.dtype))) <;> simp [hc]
  · intro nc
    by_cases hc : nc.1 ∈ getDtypeChanges sub2
        (df.map (fun mc => (mc.1, mc.2.dtype))) <;> simp [hc]

theorem toNumericMode_ignore_ok (s : Series) :
    toNumericMode .ignoreE s = .ok (toNumericIgnore s) := by
  rw [toNumericMode, toNumericIgnore]
  by_cases hc : (nonMissing s).all (fun v => (pdParseNum v).isSome) <;> simp [hc]

/-- If a selected column of `df` coerces to an `ok` value equal to itself,
its name does not appear in the change report. -/
theorem not_mem_changes_of_unchanged {sel : Dtype → Bool}
    {coerce : Series → Except String Series} {cols : Option (List String)}
    {df sub2 : Frame} {n : String} {c : Series}
    (hnodup : (df.map Prod.fst).Nodup)
    (hmem : (n, c) ∈ df)
    (hsub : coerceAll coerce (selectDtypes sel (subsetToCheck cols df)) = .ok sub2)
    (hsame : ∀ c2, coerce c = .ok c2 → c2.dtype = c.dtype) :
    ¬ n ∈ getDtypeChanges sub2 (df.map (fun mc => (mc.1, mc.2.dtype))) := by
  intro hch
  rcases mem_getDtypeChanges.mp hch with ⟨c2, hc2, d, hd, hdne⟩
  rw [assocLookup_oldDtypes hnodup hmem] at hd
  cases hd
  rcases forall2_mem_right (coerceAll_ok_iff.mp hsub) hc2 with ⟨a, ha, hname, hcoe⟩
  rcases a with ⟨an, ac⟩
  simp at hname
  subst hname
  have hadf : (n, ac) ∈ df := (selected_sublist sel cols df).mem ha
  have : ac = c := by
    have h1 := assocLookup_of_mem_nodup hnodup hadf
    have h2 := assocLookup_of_mem_nodup hnodup hmem
    rw [h1] at h2
    exact Option.some_injective _ h2
  subst this
  exact hdne (hsame c2 hcoe).symm

/-- C4: an object/string column with at least one unparsable non-missing cell
is returned byte-for-byte unchanged by `cast_to_numeric` with
`errors="ignore"` — the call succeeds and the result's column equals the
input column exactly (no partial conversion). -/
theorem C4_numeric_ignore_all_or_nothing (df : Frame) (n : String) (c : Series)
    (hnodup : (df.map Prod.fst).Nodup)
    (hmem : (n, c) ∈ df)
    (_hos : isObjectOrString c.dtype = true)
    (hbad : ∃ v, some v ∈ c.values ∧ pdParseNum v = none) :
    ∃ df2, castToNumeric .ignoreE df = .ok df2 ∧ assocLookup n df2 = some c := by
  have hvmem : ∀ v, some v ∈ c.values → v ∈ nonMissing c := by
    intro v hv
    rw [nonMissing, List.mem_filterMap]
    exact ⟨some v, hv, rfl⟩
  have hfail : (nonMissing c).all (fun v => (pdParseNum v).isSome) = false := by
    rcases hbad with ⟨v, hv, hpn⟩
    rw [List.all_eq_false]
    exact ⟨v, hvmem v hv, by simp [hpn]⟩
  have hunch : toNumericIgnore c = c := by
    rw [toNumericIgnore, hfail]
    simp
  rcases @coerceAll_ok_of_total (toNumericMode .ignoreE)
      (selectDtypes selObjectString (subsetToCheck none df))
      (fun nc _ => ⟨toNumericIgnore nc.2, toNumericMode_ignore_ok nc.2⟩) with ⟨sub2, hsub⟩
  refine ⟨applyChanges df sub2, ?_, ?_⟩
  · exact cast_ok_iff.mpr ⟨sub2, hsub, rfl⟩
  · rw [assocLookup_applyChanges hnodup hmem]
    have hnch := not_mem_changes_of_unchanged hnodup hmem hsub
      (fun c2 hc2 => by
        rw [toNumericMode_ignore_ok, hunch] at hc2
        cases hc2
        rfl)
    simp [hnch]

/-- Witness for C4: a two-column frame where column `a` holds `["1", "abc"]`;
`"abc"` is unparsable, so `a` comes back exactly as it went in. -/
theorem C4_witness :
    ∃ df2, castToNumeric .ignoreE exC4df = .ok df2 ∧
      assocLookup "a" df2 = some exC4col :=
  C4_numeric_ignore_all_or_nothing exC4df "a" exC4col (by decide) (by decide) (by decide)
    ⟨.str "abc", by decide, by decide⟩

/-- C5: whenever any examined (subset-restricted, dtype-selected) column's
coercion raises — as it does under `errors="raise"` — the whole call aborts
with that error before the write-back line runs, so the caller's frame object
(and the heap) is left completely unmutated: all-or-nothing per invocation. -/
theorem C5_raise_aborts_without_mutation (sel : Dtype → Bool)
    (coerce : Series → Except String Series) (cols : Option (List String))
    (h : Heap) (r : Nat) (df : Frame)
    (hdf : h.get? r = some df)
    (hfail : ∃ nc ∈ selectDtypes sel (subsetToCheck cols df), ∃ e, coerce nc.2 = .error e) :
    ∃ e, DtypeCasting.cast sel coerce cols df = .error e ∧
      castRef sel coerce cols h r = (h, .error e) := by
  rcases coerceAll_error_of_mem hfail with ⟨e, he⟩
  have hcast : DtypeCasting.cast sel coerce cols df = .error e := by
    rw [DtypeCasting.cast, he]
  refine ⟨e, hcast, ?_⟩
  rw [castRef, hdf]
  simp [hcast]

/-- Witness for C5: `cast_to_numeric` with `errors="raise"` on a heap holding
one frame whose column `a` contains the unparsable `"abc"` raises and leaves
the heap untouched. -/
theorem C5_witness :
    ∃ e, DtypeCasting.cast selObjectString (toNumericMode .raiseE) none exC4df = .error e ∧
      castRef selObjectString (toNumericMode .raiseE) none [exC4df] 0 =
        ([exC4df], .error e) :=
  C5_raise_aborts_without_mutation selObjectString (toNumericMode .raiseE) none
    [exC4df] 0 exC4df (by decide)
    ⟨("a", exC4col), by decide, "ValueError: Unable to parse string", by decide⟩

/-! ## Shape preservation (C9) -/

theorem convertDtypes_values (c : Series) : (convertDtypes c).values = c.values := by
  rcases c with ⟨d, vs⟩
  cases d <;> simp [convertDtypes] <;> split_ifs <;> rfl

theorem downcastInteger_values {c c2 : Series} (h : downcastInteger c = .ok c2) :
    c2.values = c.values := by
  rw [downcastInteger] at h
  by_cases h1 : couldBeInt c
  · by_cases h2 : c.dtype = .UInt8
    · rw [if_neg (by simp [h1]), if_pos h2] at h
      cases h
      rfl
    · rw [if_neg (by simp [h1]), if_neg h2] at h
      rcases hmn : obsMin c with - | mn <;> rw [hmn] at h
      · cases h
      · rcases hmx : obsMax c with - | mx <;> rw [hmx] at h <;> dsimp only at h
        · cases h
        · rcases hh : (dfIntMetadata.filter (fun r => rowCovers r mn mx)).head? with - | row <;>
            rw [hh] at h <;> dsimp only at h
          · cases h
          · by_cases h3 : c.dtype = row.dtype
            · rw [if_pos h3] at h
              cases h
              rfl
            · rw [if_neg h3] at h
              cases h
              rfl
  · rw [if_pos (by simp [h1])] at h
    cases h
    rfl

theorem cellwise_length {c c2 : Series} (h : cellwise c c2) :
    c2.values.length = c.values.length := by
  rcases h with ⟨f, -, hv⟩
  rw [hv, List.length_map]

theorem cellwise_of_values_eq (c : Series) {c2 : Series} (h : c2.values = c.values) :
    cellwise c c2 :=
  ⟨id, rfl, by rw [h, List.map_id]⟩

theorem cellwise_comp {a b c : Series} (h1 : cellwise a b) (h2 : cellwise b c) :
    cellwise a c := by
  rcases h1 with ⟨f, hf, hfv⟩
  rcases h2 with ⟨g, hg, hgv⟩
  refine ⟨g ∘ f, ?_, ?_⟩
  · simp [Function.comp, hf, hg]
  · rw [hgv, hfv, List.map_map]

theorem cellwise_bind (c : Series) {c2 : Series} (p : Val → Option Val)
    (h : c2.values = c.values.map (fun cell => cell.bind p)) : cellwise c c2 :=
  ⟨fun cell => cell.bind p, rfl, h⟩

theorem cellwise_mapv (c : Series) {c2 : Series} (g : Val → Val)
    (h : c2.values = c.values.map (Option.map g)) : cellwise c c2 :=
  ⟨Option.map g, rfl, h⟩

theorem toNumericIgnore_cellwise (c : Series) : cellwise c (toNumericIgnore c) := by
  rw [toNumericIgnore]
  split_ifs
  · exact cellwise_bind c (fun v => (pdParseNum v).map Val.num) rfl
  · exact cellwise_of_values_eq c rfl

theorem toNumericMode_cellwise {mode : ErrMode} {c c2 : Series}
    (h : toNumericMode mode c = .ok c2) : cellwise c c2 := by
  cases mode with
  | ignoreE =>
    rw [toNumericMode_ignore_ok] at h
    cases h
    exact toNumericIgnore_cellwise c
  | raiseE =>
    rw [toNumericMode] at h
    by_cases hg : (nonMissing c).all (fun v => (pdParseNum v).isSome)
    · rw [if_pos hg] at h
      cases h
      exact cellwise_bind c (fun v => (pdParseNum v).map Val.num) rfl
    · rw [if_neg hg] at h
      cases h
  | coerceE =>
    rw [toNumericMode] at h
    by_cases hg : (nonMissing c).all (fun v => (pdParseNum v).isSome)
    · rw [if_pos hg] at h
      cases h
      exact cellwise_bind c (fun v => (pdParseNum v).map Val.num) rfl
    · rw [if_neg hg] at h
      cases h
      exact cellwise_bind c (fun v => (pdParseNum v).map Val.num) rfl

theorem toBoolean_cellwise (c : Series) : cellwise c (toBoolean c) := by
  rw [toBoolean]
  split_ifs
  · exact cellwise_of_values_eq c rfl
  · exact cellwise_mapv c valAsBool rfl
  · exact cellwise_mapv c (fun v => .bool (v == .str "True")) rfl
  · exact cellwise_of_values_eq c rfl
  · exact cellwise_of_values_eq c rfl

theorem toDatetimeIgnore_cellwise (c : Series) : cellwise c (toDatetimeIgnore c) := by
  rw [toDatetimeIgnore]
  split_ifs
  · exact cellwise_bind c (fun v => (pdParseDate v).map Val.dt) rfl
  · exact cellwise_of_values_eq c rfl

theorem toTimedeltaIgnore_cellwise (c : Series) : cellwise c (toTimedeltaIgnore c) := by
  rw [toTimedeltaIgnore]
  split_ifs
  · exact cellwise_bind c (fun v => (pdParseTd v).map Val.td) rfl
  · exact cellwise_of_values_eq c rfl

theorem downcastF32_cellwise (c : Series) : cellwise c (downcastToFloat32IfUnique c) := by
  rw [downcastToFloat32IfUnique]
  split_ifs
  · exact cellwise_mapv c f32V rfl
  · exact cellwise_of_values_eq c rfl

theorem objChainTimedelta_cellwise {uc : Bool} {s c2 : Series}
    (h : objChainTimedelta uc s = .ok c2) : cellwise s c2 := by
  rw [objChainTimedelta] at h
  split_ifs at h <;> cases h <;> exact cellwise_of_values_eq s rfl

theorem objChainBoolean_cellwise {uc : Bool} {s c2 : Series}
    (h : objChainBoolean uc s = .ok c2) : cellwise s c2 := by
  rw [objChainBoolean] at h
  split_ifs at h
  · cases h
    exact cellwise_of_values_eq s rfl
  · exact cellwise_comp (toTimedeltaIgnore_cellwise s) (objChainTimedelta_cellwise h)

theorem objChainDatetime_cellwise {uc : Bool} {s c2 : Series}
    (h : objChainDatetime uc s = .ok c2) : cellwise s c2 := by
  rw [objChainDatetime] at h
  split_ifs at h
  · cases h
    exact cellwise_of_values_eq s rfl
  · exact cellwise_comp (toBoolean_cellwise s) (objChainBoolean_cellwise h)

theorem castDtypeCore_cellwise {dc uc : Bool} {s c2 : Series}
    (h : castDtypeCore dc uc s = .ok c2) : cellwise s c2 := by
  rw [castDtypeCore] at h
  split_ifs at h
  · exact cellwise_of_values_eq s (downcastInteger_values h)
  · cases h
    exact downcastF32_cellwise s
  · exact cellwise_comp (toDatetimeIgnore_cellwise s) (objChainDatetime_cellwise h)
  · cases h
    exact cellwise_of_values_eq s rfl

theorem castDtype_cellwise {dc uc : Bool} {c c2 : Series}
    (h : castDtype dc uc c = .ok c2) : cellwise c c2 := by
  rw [castDtype] at h
  refine cellwise_comp (b := if isObjectOrString c.dtype = true then toNumericIgnore c else c)
    ?_ (cellwise_comp (cellwise_of_values_eq _ (convertDtypes_values _))
      (castDtypeCore_cellwise h))
  split_ifs
  · exact toNumericIgnore_cellwise c
  · exact cellwise_of_values_eq c rfl

/-- C9: every cast operation preserves the table's shape.  Part 1: for any
dtype selector, coercion and column subset, a successful `DtypeCasting.cast`
returns a frame with the same column names in the same order, and — when the
coercion is elementwise (`cellwise`) — the column at each position has the
input column's row count and is either exactly the input column or a column
differing in dtype whose cell `i` is computed from the input's cell `i`
(missing markers staying in place), so rows keep their count and order and
only the logical dtypes of zero or more columns differ.  Parts 2–4: the
concrete coercions behind `cast_to_numeric` / `cast_to_boolean` /
`cast_dtypes` are elementwise. -/
theorem C9_shape_preservation :
    (∀ (sel : Dtype → Bool) (coerce : Series → Except String Series)
        (cols : Option (List String)) (df df2 : Frame),
      (df.map Prod.fst).Nodup →
      (∀ c c2, coerce c = .ok c2 → cellwise c c2) →
      DtypeCasting.cast sel coerce cols df = .ok df2 →
      df2.map Prod.fst = df.map Prod.fst ∧
        ∀ i n c, df.get? i = some (n, c) →
          ∃ c2, df2.get? i = some (n, c2) ∧
            c2.values.length = c.values.length ∧
            (c2 = c ∨ (c2.dtype ≠ c.dtype ∧ cellwise c c2))) ∧
    (∀ (mode : ErrMode) (c c2 : Series), toNumericMode mode c = .ok c2 → cellwise c c2) ∧
    (∀ c : Series, cellwise c (toBoolean c)) ∧
    (∀ (dc uc : Bool) (c c2 : Series), castDtype dc uc c = .ok c2 → cellwise c c2) := by
  refine ⟨?_, fun mode c c2 h => toNumericMode_cellwise h, toBoolean_cellwise,
    fun dc uc c c2 h => castDtype_cellwise h⟩
  intro sel coerce cols df df2 hnodup hcw hok
  rcases cast_ok_iff.mp hok with ⟨sub2, hsub, hdf2⟩
  subst hdf2
  refine ⟨applyChanges_map_fst df sub2, ?_⟩
  intro i n c hi
  rw [applyChanges_name_preserving df sub2 i, hi]
  by_cases hc : n ∈ getDtypeChanges sub2 (df.map (fun mc => (mc.1, mc.2.dtype)))
  · rcases mem_getDtypeChanges.mp hc with ⟨cx, hcx, d, hd, hdne⟩
    rw [assocLookup_oldDtypes hnodup (List.get?_mem hi)] at hd
    cases hd
    have hnds2 : (sub2.map Prod.fst).Nodup := by
      rw [forall2_map_fst (coerceAll_ok_iff.mp hsub) (fun a b hab => hab.1)]
      exact nodup_selected hnodup
    have ha : assocLookup n sub2 = some cx := assocLookup_of_mem_nodup hnds2 hcx
    rcases forall2_mem_right (coerceAll_ok_iff.mp hsub) hcx with ⟨a, hamem, hname, hcoe⟩
    rcases a with ⟨an, ac⟩
    simp at hname
    subst hname
    have hadf : (n, ac) ∈ df := (selected_sublist sel cols df).mem hamem
    have hac : ac = c := by
      have h1 := assocLookup_of_mem_nodup hnodup hadf
      have h2 := assocLookup_of_mem_nodup hnodup (List.get?_mem hi)
      rw [h1] at h2
      exact Option.some_injective _ h2
    subst hac
    have hcwx : cellwise ac cx := hcw _ _ hcoe
    exact ⟨cx, by simp [hc, ha], cellwise_length hcwx, Or.inr ⟨hdne.symm, hcwx⟩⟩
  · exact ⟨c, by simp [hc], rfl, Or.inl rfl⟩

/-- Witness for C9, applying part 1 to `cast_dtypes` on a two-column frame
(its own part 4 discharges the elementwise hypothesis). -/
theorem C9_witness :
    ∃ df2, castDtypes exC9df = .ok df2 ∧
      df2.map Prod.fst = exC9df.map Prod.fst ∧
      ∀ i n c, exC9df.get? i = some (n, c) →
        ∃ c2, df2.get? i = some (n, c2) ∧
          c2.values.length = c.values.length ∧
          (c2 = c ∨ (c2.dtype ≠ c.dtype ∧ cellwise c c2)) := by
  have hok : castDtypes exC9df = .ok exC9out := by decide
  have h := C9_shape_preservation.1 selNumberObjectString (castDtype true true) none
    exC9df exC9out (by decide)
    (fun c c2 hc => C9_shape_preservation.2.2.2 true true c c2 hc) hok
  exact ⟨exC9out, hok, h.1, h.2⟩

/-! ## In-place mutation (C10) -/

/-- C10: a successful `DtypeCasting.cast` call mutates its input object: the
heap cell behind the caller's reference is overwritten with the result and
the *same* reference is returned (no fresh copy), so every pre-existing alias
observes the dtype changes; and positionally, every column either is exactly
the input column (value- and dtype-identical, not written back) or differs in
dtype (i.e. it was listed in the change report and reassigned). -/
theorem C10_cast_mutates_caller_frame (sel : Dtype → Bool)
    (coerce : Series → Except String Series) (cols : Option (List String))
    (h : Heap) (r : Nat) (df df2 : Frame)
    (hnodup : (df.map Prod.fst).Nodup)
    (hdf : h.get? r = some df)
    (hok : DtypeCasting.cast sel coerce cols df = .ok df2) :
    castRef sel coerce cols h r = (h.set r df2, .ok r) ∧
    ∀ i n c, df.get? i = some (n, c) →
      df2.get? i = some (n, c) ∨
        ∃ c2, df2.get? i = some (n, c2) ∧ c2.dtype ≠ c.dtype := by
  constructor
  · rw [castRef, hdf]
    simp [hok]
  · intro i n c hi
    rcases cast_ok_iff.mp hok with ⟨sub2, hsub, hdf2⟩
    subst hdf2
    rw [applyChanges_name_preserving df sub2 i, hi]
    by_cases hc : n ∈ getDtypeChanges sub2 (df.map (fun mc => (mc.1, mc.2.dtype)))
    · rcases mem_getDtypeChanges.mp hc with ⟨cx, hcx, d, hd, hdne⟩
      rw [assocLookup_oldDtypes hnodup (List.get?_mem hi)] at hd
      cases hd
      have hnds2 : (sub2.map Prod.fst).Nodup := by
        rw [forall2_map_fst (coerceAll_ok_iff.mp hsub) (fun a b hab => hab.1)]
        exact nodup_selected hnodup
      have ha : assocLookup n sub2 = some cx := assocLookup_of_mem_nodup hnds2 hcx
      right
      exact ⟨cx, by simp [hc, ha], hdne.symm⟩
    · left
      simp [hc]

/-- Witness for C10: `cast_to_boolean` on a heap holding one two-column frame
converts the `"True"/"False"` column in place; the untouched integer column
comes back identical and the returned reference is the input reference. -/
theorem C10_witness :
    castRef selObjectString (fun s => .ok (toBoolean s)) none [exC10df] 0 =
        ([exC10out], .ok 0) ∧
    ∀ i n c, exC10df.get? i = some (n, c) →
      exC10out.get? i = some (n, c) ∨
        ∃ c2, exC10out.get? i = some (n, c2) ∧ c2.dtype ≠ c.dtype := by
  have h := C10_cast_mutates_caller_frame selObjectString (fun s => .ok (toBoolean s)) none
    [exC10df] 0 exC10df exC10out (by decide) (by decide) (by decide)
  exact ⟨h.1, h.2⟩

/-! ## Idempotence of the full pipeline (C6)

`cast_dtypes` is *not* idempotent: `Float32` narrowing can round every value
of a non-integral `Float64` column to an integral value (for example
`16777216.5`, which is not representable in 24 bits, rounds to `16777216.0`)
while preserving the distinct-value count; the second run then sees an
integer-eligible float column and downcasts it to an integer dtype.  The
amended statement proves idempotence whenever the first run's result has no
float column whose values are all integral. -/

theorem meta_int_dtypes : ∀ r ∈ dfIntMetadata, isIntDtype r.dtype = true := by decide

theorem isIntDtype_not_objstr {d : Dtype} (h : isIntDtype d = true) :
    isObjectOrString d = false := by
  revert h
  cases d <;> decide

theorem isIntDtype_ne_object {d : Dtype} (h : isIntDtype d = true) : d ≠ .ObjectD := by
  revert h
  cases d <;> decide

theorem not_objstr_ne_object {d : Dtype} (h : ¬ isObjectOrString d = true) :
    d ≠ .ObjectD := by
  revert h
  cases d <;> decide

theorem convertDtypes_of_not_object {s : Series} (h : s.dtype ≠ .ObjectD) :
    convertDtypes s = s := by
  rcases s with ⟨d, vs⟩
  cases d <;> first | rfl | exact absurd rfl h

theorem couldBeInt_of_int {s : Series} (h : isIntDtype s.dtype = true) :
    couldBeInt s = true := by
  rw [couldBeInt, h]
  rfl

theorem obsNums_congr {s t : Series} (h : s.values = t.values) : obsNums s = obsNums t := by
  rw [obsNums, obsNums, h]

/-- A successful `downcast_integer` on an int-eligible column yields an
integer-dtype column on which `downcast_integer` is the identity. -/
theorem downcastInteger_ok_int {s c1 : Series} (hci : couldBeInt s = true)
    (h : downcastInteger s = .ok c1) :
    isIntDtype c1.dtype = true ∧ downcastInteger c1 = .ok c1 := by
  rw [downcastInteger] at h
  rw [if_neg (by simp [hci])] at h
  by_cases h2 : s.dtype = .UInt8
  · rw [if_pos h2] at h
    cases h
    refine ⟨by rw [h2]; rfl, ?_⟩
    rw [downcastInteger, if_neg (by simp [hci]), if_pos h2]
  · rw [if_neg h2] at h
    rcases hmn : obsMin s with - | mn <;> rw [hmn] at h
    · cases h
    · rcases hmx : obsMax s with - | mx <;> rw [hmx] at h <;> dsimp only at h
      · cases h
      · rcases hh : (dfIntMetadata.filter (fun r => rowCovers r mn mx)).head? with - | row <;>
          rw [hh] at h <;> dsimp only at h
        · cases h
        · have hrowm : row ∈ dfIntMetadata := (List.mem_filter.mp (head?_eq_some_mem hh)).1
          have hrowint : isIntDtype row.dtype = true := meta_int_dtypes row hrowm
          by_cases h3 : s.dtype = row.dtype
          · rw [if_pos h3] at h
            cases h
            refine ⟨by rw [h3]; exact hrowint, ?_⟩
            rw [downcastInteger, if_neg (by simp [hci]), if_neg h2, hmn, hmx]
            dsimp only
            rw [hh]
            dsimp only
            rw [if_pos h3]
          · rw [if_neg h3] at h
            cases h
            refine ⟨hrowint, ?_⟩
            have hci1 : couldBeInt (astypeInt row.dtype s) = true :=
              couldBeInt_of_int hrowint
            rw [downcastInteger, if_neg (by simp [hci1])]
            by_cases h4 : (astypeInt row.dtype s).dtype = .UInt8
            · rw [if_pos h4]
            · rw [if_neg h4]
              have hvals : (astypeInt row.dtype s).values = s.values := rfl
              rw [obsMin, obsMax, obsNums_congr hvals, ← obsMin, ← obsMax, hmn, hmx]
              dsimp only
              rw [hh]
              dsimp only
              simp [astypeInt]

theorem isDatetimeDtype_eq {d : Dtype} (h : isDatetimeDtype d = true) : d = .DatetimeD := by
  revert h
  cases d <;> decide

theorem isBoolDtype_eq {d : Dtype} (h : isBoolDtype d = true) : d = .BooleanD := by
  revert h
  cases d <;> decide

theorem isTimedeltaDtype_eq {d : Dtype} (h : isTimedeltaDtype d = true) :
    d = .TimedeltaD := by
  revert h
  cases d <;> decide

/-- With `use_categories = True`, the object/string fallback chain always
ends in a datetime, boolean, timedelta or categorical column. -/
theorem objChainDatetime_dtypes {s c1 : Series} (h : objChainDatetime true s = .ok c1) :
    c1.dtype = .DatetimeD ∨ c1.dtype = .BooleanD ∨ c1.dtype = .TimedeltaD ∨
      c1.dtype = .CategoryD := by
  rw [objChainDatetime] at h
  split_ifs at h with h1
  · cases h
    exact Or.inl (isDatetimeDtype_eq h1)
  · rw [objChainBoolean] at h
    split_ifs at h with h2
    · cases h
      exact Or.inr (Or.inl (isBoolDtype_eq h2))
    · rw [objChainTimedelta] at h
      split_ifs at h with h3 h4
      · cases h
        exact Or.inr (Or.inr (Or.inl (isTimedeltaDtype_eq h3)))
      · cases h
        exact Or.inr (Or.inr (Or.inr rfl))
      · exact absurd rfl h4

/-- The central stability property behind the amended C6: a column produced
by `cast_dtype` that is still examined by the pipeline (its dtype is in
`{object, string, number}`) and is not an integral-valued float column is a
fixed point of `cast_dtype`. -/
theorem narrow32_dtype (s : Series) : (narrow32 s).dtype = .Float32 := rfl

theorem castDtype_dtype_stable {c c1 : Series}
    (h : castDtype true true c = .ok c1)
    (hsel : selNumberObjectString c1.dtype = true)
    (hflo : isFloatDtype c1.dtype = true → couldBeInt c1 = false) :
    castDtype true true c1 = .ok c1 := by
  rw [castDtype, castDtypeCore] at h
  set s2 := convertDtypes (if isObjectOrString c.dtype = true then toNumericIgnore c else c)
    with hs2
  by_cases hci : couldBeInt s2
  · rw [if_pos (by simp [hci])] at h
    rcases downcastInteger_ok_int hci h with ⟨hint, hstab⟩
    rw [castDtype, if_neg (by simp [isIntDtype_not_objstr hint]),
      convertDtypes_of_not_object (isIntDtype_ne_object hint), castDtypeCore,
      if_pos (by simp [couldBeInt_of_int hint])]
    exact hstab
  · rw [if_neg (by simp [hci])] at h
    by_cases hf64 : s2.dtype = .Float64
    · rw [if_pos (by simp [hf64])] at h
      cases h
      rw [downcastToFloat32IfUnique] at hflo ⊢
      by_cases hnu : nunique (narrow32 s2) = nunique s2
      · rw [if_pos hnu] at hflo ⊢
        have hci1 : couldBeInt (narrow32 s2) = false :=
          hflo (by rw [narrow32_dtype]; decide)
        rw [castDtype, if_neg (by rw [narrow32_dtype]; decide),
          convertDtypes_of_not_object (by rw [narrow32_dtype]; decide), castDtypeCore,
          if_neg (by simp [hci1]), if_neg (by rw [narrow32_dtype]; decide),
          if_neg (by rw [narrow32_dtype]; decide)]
      · rw [if_neg hnu] at hflo ⊢
        rw [castDtype, if_neg (by rw [hf64]; decide),
          convertDtypes_of_not_object (by rw [hf64]; decide), castDtypeCore,
          if_neg (by simp [hci]), if_pos (by simp [hf64]),
          downcastToFloat32IfUnique, if_neg hnu]
    · rw [if_neg (by simp [hf64])] at h
      by_cases hos : isObjectOrString s2.dtype
      · rw [if_pos hos] at h
        rcases objChainDatetime_dtypes h with hd | hd | hd | hd <;>
          rw [hd] at hsel <;> exact absurd hsel (by decide)
      · rw [if_neg hos] at h
        injection h with h
        subst h
        rw [castDtype, if_neg hos,
          convertDtypes_of_not_object (not_objstr_ne_object hos), castDtypeCore,
          if_neg (by simp [hci]), if_neg (by simp [hf64]), if_neg hos]

/-- When every selected column coerces successfully to a column of the same
dtype, the change report is empty and `DtypeCasting.cast` returns the frame
unchanged. -/
theorem cast_id_of_dtype_stable {sel : Dtype → Bool}
    {coerce : Series → Except String Series} {df : Frame}
    (hnodup : (df.map Prod.fst).Nodup)
    (hall : ∀ nc ∈ selectDtypes sel df, ∃ c2, coerce nc.2 = .ok c2 ∧ c2.dtype = nc.2.dtype) :
    DtypeCasting.cast sel coerce none df = .ok df := by
  rcases @coerceAll_ok_of_total coerce (selectDtypes sel (subsetToCheck none df))
      (fun nc hm => ⟨(hall nc hm).choose, (hall nc hm).choose_spec.1⟩)
    with ⟨sub2, hsub⟩
  have hchanges : getDtypeChanges sub2 (df.map (fun mc => (mc.1, mc.2.dtype))) = [] := by
    rw [List.eq_nil_iff_forall_not_mem]
    intro n hn
    rcases mem_getDtypeChanges.mp hn with ⟨cx, hcx, d, hd, hdne⟩
    rcases forall2_mem_right (coerceAll_ok_iff.mp hsub) hcx with ⟨a, ha, hname, hcoe⟩
    rcases a with ⟨an, ac⟩
    simp at hname
    subst hname
    have hadf : (n, ac) ∈ df := (selected_sublist sel none df).mem ha
    rw [assocLookup_oldDtypes hnodup hadf] at hd
    cases hd
    rcases hall (n, ac) ha with ⟨c2, hc2, hdt⟩
    rw [hcoe] at hc2
    injection hc2 with hc2
    exact hdne (by rw [← hc2] at hdt; exact hdt.symm)
  refine cast_ok_iff.mpr ⟨sub2, hsub, ?_⟩
  rw [applyChanges, hchanges]
  simp

/-- C6 (amended): the pipeline is idempotent on every table whose first-run
result contains no float-dtype column with all-integral values.  (The
unamended claim is false: `Float32` narrowing can round a non-integral
`Float64` column to all-integral values while preserving the distinct count,
and the second run then downcasts it to an integer dtype; see the
counterexample.) -/
theorem C6_pipeline_idempotent_unless_integral_float (T T1 : Frame)
    (hnodup : (T.map Prod.fst).Nodup)
    (h1 : castDtypes T = .ok T1)
    (h2 : ∀ nc ∈ T1, isFloatDtype nc.2.dtype = true → couldBeInt nc.2 = false) :
    castDtypes T1 = .ok T1 := by
  rcases cast_ok_iff.mp h1 with ⟨sub2, hsub, hT1⟩
  have hnodup1 : (T1.map Prod.fst).Nodup := by
    rw [hT1, applyChanges_map_fst]
    exact hnodup
  have hnds2 : (sub2.map Prod.fst).Nodup := by
    rw [forall2_map_fst (coerceAll_ok_iff.mp hsub) (fun a b hab => hab.1)]
    exact nodup_selected hnodup
  apply cast_id_of_dtype_stable hnodup1
  intro nc1 hmem1
  have hsel1 : selNumberObjectString nc1.2.dtype = true := (List.mem_filter.mp hmem1).2
  have hmemT1 : nc1 ∈ T1 := (selectDtypes_sublist _ _).mem hmem1
  have hmemT1m := hmemT1
  rw [hT1] at hmemT1m
  rcases List.mem_map.mp hmemT1m with ⟨nc, hncT, hg⟩
  rcases nc with ⟨n, c⟩
  by_cases hch : n ∈ getDtypeChanges sub2 (T.map (fun mc => (mc.1, mc.2.dtype)))
  · rcases mem_getDtypeChanges.mp hch with ⟨cx, hcx, d, hd, hdne⟩
    have ha : assocLookup n sub2 = some cx := assocLookup_of_mem_nodup hnds2 hcx
    have hnc1 : nc1 = (n, cx) := by
      rw [← hg]
      simp [hch, ha]
    rcases forall2_mem_right (coerceAll_ok_iff.mp hsub) hcx with ⟨a, haa, hname, hcoe⟩
    rcases a with ⟨an, ac⟩
    simp at hname
    subst hname
    have hadf : (n, ac) ∈ T := (selected_sublist _ none T).mem haa
    have hac : ac = c := by
      have e1 := assocLookup_of_mem_nodup hnodup hadf
      have e2 := assocLookup_of_mem_nodup hnodup hncT
      rw [e1] at e2
      exact Option.some_injective _ e2
    subst hac
    have hselx : selNumberObjectString cx.dtype = true := by
      rw [hnc1] at hsel1
      exact hsel1
    have hflox : isFloatDtype cx.dtype = true → couldBeInt cx = false := by
      have := h2 nc1 hmemT1
      rw [hnc1] at this
      exact this
    have hstab := castDtype_dtype_stable hcoe hselx hflox
    rw [hnc1]
    exact ⟨cx, hstab, rfl⟩
  · have hnc1 : nc1 = (n, c) := by
      rw [← hg]
      simp [hch]
    have hselc : selNumberObjectString c.dtype = true := by
      rw [hnc1] at hsel1
      exact hsel1
    have hmemsel : (n, c) ∈ selectDtypes selNumberObjectString (subsetToCheck none T) :=
      List.mem_filter.mpr ⟨hncT, hselc⟩
    rcases forall2_mem_left (coerceAll_ok_iff.mp hsub) hmemsel with ⟨b, hb, hbname, hbcoe⟩
    rcases b with ⟨bn, bc⟩
    simp at hbname
    subst hbname
    have hbd : bc.dtype = c.dtype := by
      by_contra hne
      apply hch
      apply mem_getDtypeChanges.mpr
      exact ⟨bc, hb, c.dtype, assocLookup_oldDtypes hnodup hncT, fun he => hne he.symm⟩
    rw [hnc1]
    exact ⟨bc, hbcoe, hbd⟩

/-- Witness for C6 (amended): a one-column integer table; the first run
downcasts `Int64 → UInt8`, the second run is the identity. -/
theorem C6_witness :
    castDtypes exC6T = .ok exC6T1 ∧ castDtypes exC6T1 = .ok exC6T1 := by
  have h1 : castDtypes exC6T = .ok exC6T1 := by decide
  exact ⟨h1, C6_pipeline_idempotent_unless_integral_float exC6T exC6T1 (by decide) h1
    (by decide)⟩

/-- Counterexample for C6: on the `Float64` column `[16777216.5, 2.0]` the
first run narrows to `Float32` — rounding `16777216.5` to `16777216.0` while
keeping both values distinct — and the second run, seeing an integral float
column, downcasts it further to `UInt32`.  The second run's result is not the
first run's (the dtype changes again, and the change report is non-empty). -/
theorem C6_counterexample :
    castDtypes exC6Tc = .ok exC6T1c ∧ ¬ (castDtypes exC6T1c = .ok exC6T1c) := by
  constructor
  · decide
  · decide

end Pandalytics
